import Mathlib

set_option maxRecDepth 4000

/-!
Verification development for the CBS projects Excel-to-Turtle pipeline.

Strings are modelled as `List Char` (Python `str` values are sequences of
code points, and all operations used by the scripts are code-point-wise).
Spreadsheet cells that can be `NaN` are modelled as `Option (List Char)`;
date cells are modelled as the already-formatted `YYYY-MM-DD` string when
`format_date` succeeds and `none` when the cell is missing or unparseable
(the claims under study do not depend on the internals of date parsing).
Random dataset identifiers are modelled by an explicit supply
`ids : Nat → List Char` consumed in first-seen order, matching the seeded
generator that the scripts call once per newly seen dataset name.
-/

/-- The backslash character, written by code point to keep literals readable. -/
def bslash : Char := Char.ofNat 92

/-- The double-quote character. -/
def dquote : Char := Char.ofNat 34

/-- The apostrophe character. -/
def apos : Char := Char.ofNat 39

/-- Python `\s` on the ASCII range: space, tab, newline, vertical tab,
form feed, carriage return.  The institution and project fields in the
spreadsheet are ASCII-or-Latin text; the scripts use `\s` only through
`re.sub` and `.strip()`. -/
def pyIsSpace (c : Char) : Bool :=
  decide (c = ' ') || decide (c.toNat = 9) || decide (c.toNat = 10) ||
  decide (c.toNat = 11) || decide (c.toNat = 12) || decide (c.toNat = 13)

/-- Python `str.strip()`: drop whitespace from both ends. -/
def pyStrip (s : List Char) : List Char :=
  ((s.dropWhile pyIsSpace).reverse.dropWhile pyIsSpace).reverse

/-- Python `text.replace(old, new)` where `old` is a single character:
substitute `new` for every occurrence of that character. -/
def pyReplaceChar (old : Char) (new : List Char) : List Char → List Char
  | [] => []
  | c :: rest => (if c = old then new else [c]) ++ pyReplaceChar old new rest

/-- `escape_turtle_string` from `src/excel_to_turtle.py` (lines 72-80) on a
present (non-NaN) string: first double every backslash, then escape every
double quote. -/
def escape_turtle_string (s : List Char) : List Char :=
  pyReplaceChar dquote [bslash, dquote] (pyReplaceChar bslash [bslash, bslash] s)

/-- `escape_turtle_string` including the `pd.isna` branch: a missing cell
becomes the empty string. -/
def escapeOptional : Option (List Char) → List Char
  | none => []
  | some t => escape_turtle_string t

/-- The quote-only escaping used by `src/generate_turtle.py`
(lines 144 and 185): `str(title).replace('"', '\\"')`.  Backslashes are left
untouched. -/
def gtEscape (s : List Char) : List Char :=
  pyReplaceChar dquote [bslash, dquote] s

/-- Character-wise view of `escape_turtle_string`, used in proofs. -/
def escapeCharwise : List Char → List Char
  | [] => []
  | c :: rest =>
    (if c = bslash then [bslash, bslash]
     else if c = dquote then [bslash, dquote]
     else [c]) ++ escapeCharwise rest

/-- Reversal of the escape rule stated in the spec: `\\` becomes `\` and
`\"` becomes `"`; any other character is copied. -/
def unescapeTurtle : List Char → List Char
  | [] => []
  | [c] => [c]
  | c :: d :: rest =>
    if c = bslash then
      if d = bslash ∨ d = dquote then d :: unescapeTurtle rest
      else c :: unescapeTurtle (d :: rest)
    else c :: unescapeTurtle (d :: rest)

/-- Characters kept by `re.sub(r'[^a-zA-Z0-9\s]', '', org_name)`. -/
def isOrgKeepChar (c : Char) : Bool :=
  (decide ('a' ≤ c) && decide (c ≤ 'z')) ||
  (decide ('A' ≤ c) && decide (c ≤ 'Z')) ||
  (decide ('0' ≤ c) && decide (c ≤ '9')) || pyIsSpace c

/-- `re.sub(r'\s+', '_', s)`: every maximal whitespace run becomes a single
underscore.  The Boolean flag records whether we are inside a run whose
underscore has already been emitted. -/
def collapseWsAux : Bool → List Char → List Char
  | _, [] => []
  | inRun, c :: rest =>
    if pyIsSpace c then
      if inRun then collapseWsAux true rest
      else '_' :: collapseWsAux true rest
    else c :: collapseWsAux false rest

/-- `re.sub(r'\s+', '_', s)`. -/
def collapseWs (s : List Char) : List Char := collapseWsAux false s

/-- The name cleaning inside `generate_organization_uri`
(`src/excel_to_turtle.py` lines 34-40): strip characters outside
`[a-zA-Z0-9\s]`, strip outer whitespace, collapse whitespace runs to single
underscores, lower-case, truncate to 50 characters.  `Char.toLower` agrees
with Python `str.lower()` on the ASCII letters that survive the filter. -/
def clean_name (s : List Char) : List Char :=
  let c1 := (s.filter isOrgKeepChar)
  let c2 := (collapseWs (pyStrip c1)).map Char.toLower
  if c2.length > 50 then c2.take 50 else c2

/-- The fixed organization namespace of both scripts. -/
def orgNamespace : List Char := "https://w3id.org/odissei/ns/kg/cbs/organization/".data

/-- `generate_organization_uri` from `src/excel_to_turtle.py` lines 34-40. -/
def generate_organization_uri (s : List Char) : List Char :=
  orgNamespace ++ clean_name s

/-- `OrganizationLookup.generate_organization_uri` from
`src/organization_lookup.py` lines 43-51; the body is character-for-character
the same computation as the module-level function in `excel_to_turtle.py`. -/
def lookupGenerateOrganizationUri (s : List Char) : List Char :=
  orgNamespace ++ clean_name s

/-- Python `word in name` on strings: contiguous-substring test. -/
def containsSub : List Char → List Char → Bool
  | n, [] => n.isEmpty
  | n, c :: t => n.isPrefixOf (c :: t) || containsSub n t

/-- `any(word in name_lower for word in kws)`. -/
def anyKeyword (nameLower : List Char) (kws : List (List Char)) : Bool :=
  kws.any (fun k => containsSub k nameLower)

/-- Education keywords from `classify_organization` (line 46). -/
def eduKeywords : List (List Char) :=
  ["universiteit".data, "university".data, "hogeschool".data, "college".data]

/-- Government keywords (line 48). -/
def govKeywords : List (List Char) :=
  ["ministerie".data, "ministry".data, "gemeente".data, "provincie".data, "government".data]

/-- Research keywords (line 50). -/
def resKeywords : List (List Char) :=
  ["onderzoek".data, "research".data, "instituut".data, "institute".data, "planbureau".data]

/-- Corporate keywords (line 52). -/
def corpKeywords : List (List Char) :=
  ["bv".data, "nv".data, "ltd".data, "inc".data, "corp".data, "company".data]

/-- The five category strings `classify_organization` can return. -/
def orgCategories : List (List Char) :=
  ["schema:EducationalOrganization".data, "schema:GovernmentOrganization".data,
   "schema:ResearchOrganization".data, "schema:Corporation".data, "schema:Organization".data]

/-- `classify_organization` from `src/excel_to_turtle.py` lines 42-55.
`name.map Char.toLower` models Python `org_name.lower()`; the keyword lists
are pure-ASCII so matching is unaffected on the spreadsheet alphabet. -/
def classify_organization (name : List Char) : List Char :=
  let nl := name.map Char.toLower
  if anyKeyword nl eduKeywords then "schema:EducationalOrganization".data
  else if anyKeyword nl govKeywords then "schema:GovernmentOrganization".data
  else if anyKeyword nl resKeywords then "schema:ResearchOrganization".data
  else if anyKeyword nl corpKeywords then "schema:Corporation".data
  else "schema:Organization".data

/-- Per-category match tests, used to state the priority order of
`classify_organization`. -/
def hasEduKeyword (name : List Char) : Bool := anyKeyword (name.map Char.toLower) eduKeywords

/-- Government match test. -/
def hasGovKeyword (name : List Char) : Bool := anyKeyword (name.map Char.toLower) govKeywords

/-- Research match test. -/
def hasResKeyword (name : List Char) : Bool := anyKeyword (name.map Char.toLower) resKeywords

/-- Corporate match test. -/
def hasCorpKeyword (name : List Char) : Bool := anyKeyword (name.map Char.toLower) corpKeywords

/-- Turtle quoted literal: a double-quoted string (no further escaping here;
callers pass already-escaped text, exactly as the Python f-strings do). -/
def quoted (s : List Char) : List Char := dquote :: (s ++ [dquote])

/-- Turtle URI reference `<...>`. -/
def uriRef (u : List Char) : List Char := '<' :: (u ++ ['>'])

/-- The fixed project namespace. -/
def projectNamespace : List Char := "https://w3id.org/odissei/ns/kg/cbs/project/".data

/-- The fixed dataset namespace. -/
def datasetNamespace : List Char := "https://w3id.org/odissei/ns/kg/cbs/dataset/".data

/-- One spreadsheet row, with `none` for a missing (`NaN`) cell.  The date
columns hold the `format_date` result (`none` when missing or unparseable). -/
structure XRow where
  projectnummer : Option (List Char)
  onderzoek : Option (List Char)
  startdatum : Option (List Char)
  einddatum : Option (List Char)
  bestandsnaam : Option (List Char)
  instelling : Option (List Char)
deriving DecidableEq

/-- The per-project record built by `process_excel_to_turtle`
(`src/excel_to_turtle.py` lines 138-145).  The Python sets are modelled as
duplicate-free lists in insertion order; emission sorts them, as the code
does. -/
structure XProject where
  title : List Char
  start_date : Option (List Char)
  end_date : Option (List Char)
  datasets : List (List Char)
  organizations : List (List Char)
deriving DecidableEq

/-- The mutable state of `process_excel_to_turtle`: the `projects`,
`datasets`, `organizations` dictionaries (as insertion-ordered association
lists with unique keys, like Python dicts), the organization cache, and the
position in the random-identifier supply. -/
structure XState where
  projects : List (List Char × XProject)
  datasets : List (List Char × List Char × List Char)
  organizations : List (List Char × List Char × List Char)
  cache : List (List Char × List Char × List Char)
  nextId : Nat
deriving DecidableEq

/-- Python `set.add`: insert if absent. -/
def addToSet (x : List Char) (l : List (List Char)) : List (List Char) :=
  if x ∈ l then l else l ++ [x]

/-- Update the value stored under a key of an association list (Python
`projects[uri]['datasets'].add(...)` style in-place update). -/
def updateAssoc (k : List Char) (f : XProject → XProject) :
    List (List Char × XProject) → List (List Char × XProject)
  | [] => []
  | (k2, v) :: rest =>
    if k2 = k then (k2, f v) :: rest else (k2, v) :: updateAssoc k f rest

/-- `project_uri = f"https://.../project/{project_num}"`. -/
def xProjectUri (pn : List Char) : List Char := projectNamespace ++ pn

/-- The record stored the first time a project URI is seen
(lines 138-145): title escaped, dates formatted, empty reference sets. -/
def xInitProject (r : XRow) : XProject :=
  { title := escapeOptional r.onderzoek
    start_date := r.startdatum
    end_date := r.einddatum
    datasets := []
    organizations := [] }

/-- Lines 137-145: store project info on first sight of the URI. -/
def xStepProject (st : XState) (uri : List Char) (r : XRow) : XState :=
  if (List.lookup uri st.projects).isSome then st
  else { st with projects := st.projects ++ [(uri, xInitProject r)] }

/-- Add a dataset URI to a project's dataset set (line 156). -/
def xAddDataset (st : XState) (uri du : List Char) : XState :=
  { st with projects :=
      updateAssoc uri (fun p => { p with datasets := addToSet du p.datasets }) st.projects }

/-- Lines 147-156: register the dataset under its raw name on first sight,
minting a fresh random URI, then add that URI to the project's set. -/
def xStepDataset (ids : Nat → List Char) (st : XState) (uri : List Char) (r : XRow) : XState :=
  match r.bestandsnaam with
  | none => st
  | some dn =>
    if (pyStrip dn).isEmpty then st
    else
      match List.lookup dn st.datasets with
      | some e => xAddDataset st uri e.fst
      | none =>
        let du := datasetNamespace ++ ids st.nextId
        xAddDataset
          { st with datasets := st.datasets ++ [(dn, du, escape_turtle_string dn)]
                    nextId := st.nextId + 1 } uri du

/-- Lines 158-178: organization processing.  Deduplication is keyed on the
generated URI; on first sight of a URI the display name and type are taken
from the cache when the raw institution name is cached, otherwise freshly
classified and cached. -/
def xStepOrg (st : XState) (uri : List Char) (r : XRow) : XState :=
  match r.instelling with
  | none => st
  | some inst =>
    if (pyStrip inst).isEmpty then st
    else
      let ouri := generate_organization_uri inst
      let st2 :=
        if (List.lookup ouri st.organizations).isSome then st
        else
          match List.lookup inst st.cache with
          | some e =>
            { st with organizations :=
                st.organizations ++ [(ouri, escape_turtle_string e.fst, e.snd)] }
          | none =>
            { st with
                cache := st.cache ++ [(inst, inst, classify_organization inst)]
                organizations :=
                  st.organizations ++
                    [(ouri, escape_turtle_string inst, classify_organization inst)] }
      { st2 with
          projects :=
            updateAssoc uri (fun p => { p with organizations := addToSet ouri p.organizations })
              st2.projects }

/-- The per-row body of the main loop (lines 126-178).  A row whose
`Projectnummer` cell is `NaN` fails the `pd.notna` guard and changes
nothing; note that the guard does not test for blank strings. -/
def processXRow (ids : Nat → List Char) (st : XState) (r : XRow) : XState :=
  match r.projectnummer with
  | none => st
  | some pn =>
    let uri := xProjectUri pn
    xStepOrg (xStepDataset ids (xStepProject st uri r) uri r) uri r

/-- The empty starting state (fresh run with an empty cache file). -/
def initXState : XState :=
  { projects := [], datasets := [], organizations := [], cache := [], nextId := 0 }

/-- The whole ingestion loop of `process_excel_to_turtle`. -/
def runExcel (ids : Nat → List Char) (rows : List XRow) : XState :=
  rows.foldl (processXRow ids) initXState

/-- Python `sorted` on a list of strings: code-point lexicographic. -/
def sortUris (l : List (List Char)) : List (List Char) :=
  List.insertionSort (· ≤ ·) l

/-- Line 211-212: the title line, present only when the stored (escaped)
title is non-empty (Python truthiness). -/
def xTitleLines (p : XProject) : List (List Char) :=
  if p.title.isEmpty then []
  else ["   dc:title ".data ++ quoted p.title ++ " ;".data]

/-- Lines 214-215. -/
def xStartLines (p : XProject) : List (List Char) :=
  match p.start_date with
  | some d => ["   schema:startDate ".data ++ quoted d ++ "^^xsd:date ;".data]
  | none => []

/-- Lines 217-218. -/
def xEndLines (p : XProject) : List (List Char) :=
  match p.end_date with
  | some d => ["   schema:endDate ".data ++ quoted d ++ "^^xsd:date ;".data]
  | none => []

/-- Lines 220-222: one `dc:requires` line per dataset URI, in sorted order,
every one terminated with a semicolon. -/
def xRequiresLines (p : XProject) : List (List Char) :=
  (sortUris p.datasets).map
    (fun du => "   dc:requires ".data ++ uriRef du ++ " ;".data)

/-- Lines 224-230: organization lines in sorted order; only the LAST
organization line is terminated with a period, all earlier ones with a
semicolon. -/
def xOrgLinesAux : List (List Char) → List (List Char)
  | [] => []
  | [u] => ["   schema:parentOrganization ".data ++ uriRef u ++ " .".data]
  | u :: v :: rest =>
    ("   schema:parentOrganization ".data ++ uriRef u ++ " ;".data) :: xOrgLinesAux (v :: rest)

/-- Organization lines of one project block. -/
def xOrgLines (p : XProject) : List (List Char) :=
  xOrgLinesAux (sortUris p.organizations)

/-- Lines 207-232: the complete project block.  The subject line is emitted
unconditionally, before any property test. -/
def xProjectBlock (uri : List Char) (p : XProject) : List (List Char) :=
  (uriRef uri ::
    (xTitleLines p ++ xStartLines p ++ xEndLines p ++ xRequiresLines p ++ xOrgLines p)) ++ [[]]

/-- All project blocks, in dictionary (insertion) order. -/
def xProjectSection (st : XState) : List (List Char) :=
  (st.projects.map (fun e => xProjectBlock e.fst e.snd)).flatten

/-- Lines 234-241: a dataset block. -/
def xDatasetBlock (e : List Char × List Char × List Char) : List (List Char) :=
  [uriRef e.snd.fst, "   dc:alternative ".data ++ quoted e.snd.snd ++ " .".data, []]

/-- All dataset blocks. -/
def xDatasetSection (st : XState) : List (List Char) :=
  (st.datasets.map xDatasetBlock).flatten

/-- Lines 243-251: an organization block. -/
def xOrgBlock (e : List Char × List Char × List Char) : List (List Char) :=
  [uriRef e.fst,
   "   rdf:type ".data ++ e.snd.snd ++ " ;".data,
   "   foaf:name ".data ++ quoted e.snd.fst ++ " .".data,
   []]

/-- All organization blocks. -/
def xOrgSection (st : XState) : List (List Char) :=
  (st.organizations.map xOrgBlock).flatten

/-- Lines 193-205: the fixed prefix header. -/
def xPrefixBlock : List (List Char) :=
  ["@prefix schema: <http://schema.org/> .".data,
   "@prefix xsd: <http://www.w3.org/2001/XMLSchema#> .".data,
   "@prefix dc: <http://purl.org/dc/elements/1.1/> .".data,
   "@prefix foaf: <http://xmlns.com/foaf/0.1/> .".data,
   "@prefix rdf: <http://www.w3.org/1999/02/22-rdf-syntax-ns#> .".data,
   "@prefix rdfs: <http://www.w3.org/2000/01/rdf-schema#> .".data,
   [],
   "# CBS Projects with end dates before 2025".data,
   "# Generated from Excel data".data,
   []]

/-- The full line list written by `process_excel_to_turtle`. -/
def excelOutput (ids : Nat → List Char) (rows : List XRow) : List (List Char) :=
  let st := runExcel ids rows
  xPrefixBlock ++ xProjectSection st ++
    ("# Datasets".data :: xDatasetSection st) ++
    ("# Organizations".data :: xOrgSection st)

/-- First-seen deduplication, as pandas `Series.unique` and dict insertion
order produce. -/
def dedupFirstSeen (l : List (List Char)) : List (List Char) :=
  l.foldl (fun acc x => if x ∈ acc then acc else acc ++ [x]) []

/-- The group keys of `df.groupby('Projectnummer')` in `generate_turtle.py`
line 79: the distinct non-missing project numbers, in sorted order (pandas
groupby sorts group keys by default). -/
def gtKeys (rows : List XRow) : List (List Char) :=
  sortUris (dedupFirstSeen (rows.filterMap (fun r => r.projectnummer)))

/-- pandas `GroupBy.agg('first')` for one column of one group: the first
NON-MISSING value of the column among the group's rows, in row order
(`GroupBy.first` skips nulls). -/
def firstSome (f : XRow → Option (List Char)) (pn : List Char) (rows : List XRow) :
    Option (List Char) :=
  ((rows.filter (fun r => decide (r.projectnummer = some pn))).filterMap f).head?

/-- `df['Bestandsnaam'].dropna().unique()` (line 87): distinct non-missing
dataset names in first-seen order; blank strings are kept. -/
def gtUniqueDatasets (rows : List XRow) : List (List Char) :=
  dedupFirstSeen (rows.filterMap (fun r => r.bestandsnaam))

/-- Lines 91-95: assign the k-th freshly generated identifier to the k-th
unique dataset name. -/
def assignIds (ids : Nat → List Char) : Nat → List (List Char) → List (List Char × List Char)
  | _, [] => []
  | k, dn :: rest => (dn, datasetNamespace ++ ids k) :: assignIds ids (k + 1) rest

/-- `dataset_uri_mapping` (lines 92-95). -/
def gtMapping (ids : Nat → List Char) (rows : List XRow) : List (List Char × List Char) :=
  assignIds ids 0 (gtUniqueDatasets rows)

/-- `project_datasets[pn]` (lines 98-99): the dataset names of the rows
whose project number is `pn` and whose dataset cell is present, in row
order, duplicates kept (`groupby(...).apply(list)`). -/
def gtProjDatasets (pn : List Char) (rows : List XRow) : List (List Char) :=
  rows.filterMap (fun r => if r.projectnummer = some pn then r.bestandsnaam else none)

/-- Lines 139-162: the `properties` list of one project, without the
terminators that are added at emission time. -/
def gtProperties (ids : Nat → List Char) (rows : List XRow) (pn : List Char) :
    List (List Char) :=
  let title := firstSome (fun r => r.onderzoek) pn rows
  let tLines :=
    match title with
    | some t => if t.isEmpty then [] else ["   dc:title ".data ++ quoted (gtEscape t)]
    | none => []
  let sLines :=
    match firstSome (fun r => r.startdatum) pn rows with
    | some d => ["   schema:startDate ".data ++ quoted d ++ "^^xsd:date".data]
    | none => []
  let eLines :=
    match firstSome (fun r => r.einddatum) pn rows with
    | some d => ["   schema:endDate ".data ++ quoted d ++ "^^xsd:date".data]
    | none => []
  let rLines :=
    (gtProjDatasets pn rows).filterMap
      (fun dn =>
        match List.lookup dn (gtMapping ids rows) with
        | some du => some ("   dc:requires ".data ++ uriRef du)
        | none => none)
  tLines ++ sLines ++ eLines ++ rLines

/-- Lines 167-171: terminate every property with `;` except the last,
which gets `.`. -/
def sepJoin : List (List Char) → List (List Char)
  | [] => []
  | [p] => [p ++ " .".data]
  | p :: q :: rest => (p ++ " ;".data) :: sepJoin (q :: rest)

/-- Lines 116-173: the emitted block of one project group, empty when the
group is skipped (blank number, no usable data, or no properties). -/
def gtProjectBlock (ids : Nat → List Char) (rows : List XRow) (pn : List Char) :
    List (List Char) :=
  if pn.isEmpty then []
  else
    let t := firstSome (fun r => r.onderzoek) pn rows
    let sd := firstSome (fun r => r.startdatum) pn rows
    let ed := firstSome (fun r => r.einddatum) pn rows
    if sd = none ∧ ed = none ∧ (t = none ∨ t = some []) then []
    else
      let props := gtProperties ids rows pn
      if props.isEmpty then []
      else (uriRef (projectNamespace ++ pn) :: sepJoin props) ++ [[]]

/-- All project blocks of `generate_turtle_rdf`, in sorted key order. -/
def gtProjectSection (ids : Nat → List Char) (rows : List XRow) : List (List Char) :=
  ((gtKeys rows).map (gtProjectBlock ids rows)).flatten

/-- Lines 177-191: the dataset blocks, in first-seen order; blank names are
skipped (but still hold a URI in the mapping). -/
def gtDatasetSection (ids : Nat → List Char) (rows : List XRow) : List (List Char) :=
  ((gtUniqueDatasets rows).map
    (fun dn =>
      if dn.isEmpty then []
      else
        match List.lookup dn (gtMapping ids rows) with
        | some du =>
          [uriRef du, "   dc:alternative ".data ++ quoted (gtEscape dn) ++ " .".data, []]
        | none => [])).flatten

/-- Lines 109-112: the prefix header of `generate_turtle_rdf`. -/
def gtPrefixBlock : List (List Char) :=
  ["@prefix schema: <http://schema.org/> .".data,
   "@prefix xsd: <http://www.w3.org/2001/XMLSchema#> .".data,
   "@prefix dc: <http://purl.org/dc/elements/1.1/> .".data,
   []]

/-- The full line list written by `generate_turtle_rdf`. -/
def gtOutput (ids : Nat → List Char) (rows : List XRow) : List (List Char) :=
  gtPrefixBlock ++ gtProjectSection ids rows ++ gtDatasetSection ids rows

/-- Match a literal pattern at the head of the input; on success return the
remainder. -/
def matchLit : List Char → List Char → Option (List Char)
  | [], l => some l
  | _ :: _, [] => none
  | p :: ps, c :: cs => if p = c then matchLit ps cs else none

/-- Try to match the regex `PAT\s+"[^"]*"` at the head of the input, where
`PAT` is a literal.  On success return the whitespace run, the quoted value
and the remainder after the closing quote.  The greedy `\s+` followed by a
quote, and the greedy `[^"]*` followed by a quote, each match exactly the
maximal run, as in Python `re`. -/
def tryPredMatch (pat : List Char) (l : List Char) :
    Option (List Char × List Char × List Char) :=
  match matchLit pat l with
  | none => none
  | some r1 =>
    let ws := r1.takeWhile pyIsSpace
    let r2 := r1.dropWhile pyIsSpace
    if ws.isEmpty then none
    else
      match r2 with
      | [] => none
      | c :: r3 =>
        if c = dquote then
          let v := r3.takeWhile (fun d => !decide (d = dquote))
          match r3.dropWhile (fun d => !decide (d = dquote)) with
          | [] => none
          | _ :: r5 => some (ws, v, r5)
        else none

/-- One `re.sub` pass over the whole input: scan left to right, replacing
each non-overlapping match of `PAT\s+"[^"]*"` by `repl ws value` and
continuing after the match, copying unmatched characters.  The fuel is an
upper bound on the number of scanning steps; `scanGo` is always called with
fuel equal to the input length, which suffices because every step consumes
at least one character. -/
def scanGo (pat : List Char) (repl : List Char → List Char → List Char) :
    Nat → List Char → List Char
  | 0, l => l
  | _ + 1, [] => []
  | fuel + 1, c :: rest =>
    match tryPredMatch pat (c :: rest) with
    | some (ws, v, r) => repl ws v ++ scanGo pat repl fuel r
    | none => c :: scanGo pat repl fuel rest

/-- Run a `re.sub` pass with enough fuel. -/
def scanSub (pat : List Char) (repl : List Char → List Char → List Char)
    (content : List Char) : List Char :=
  scanGo pat repl content.length content

/-- The replacement of `fix_backslashes_in_turtle`
(`src/fix_backslashes.py` lines 27-43): keep the property part (pattern and
whitespace) and double every backslash inside the quoted value. -/
def fixAltRepl (ws v : List Char) : List Char :=
  "dc:alternative".data ++ ws ++ [dquote] ++
    pyReplaceChar bslash [bslash, bslash] v ++ [dquote]

/-- The whole backslash-repair pass on a file content. -/
def fix_backslashes_in_turtle (content : List Char) : List Char :=
  scanSub "dc:alternative".data fixAltRepl content

/-- The fixed lookup table of `replace_foaf_focus.py` (lines 16-22). -/
def focusMapping : List (List Char × List Char) :=
  [("Educational Institution".data, "schema:EducationalOrganization".data),
   ("Organization".data, "schema:Organization".data),
   ("Research Institute".data, "schema:ResearchOrganization".data),
   ("Private Company".data, "schema:Corporation".data),
   ("Government Agency".data, "schema:GovernmentOrganization".data)]

/-- `replace_focus` (`src/replace_foaf_focus.py` lines 44-55): a mapped
value becomes an `rdf:type` statement (the captured whitespace is dropped
by the replacement template); an unmapped value reproduces the entire
match unchanged. -/
def replaceFocusRepl (ws v : List Char) : List Char :=
  match List.lookup v focusMapping with
  | some cls => "rdf:type ".data ++ cls
  | none => "foaf:focus".data ++ ws ++ [dquote] ++ v ++ [dquote]

/-- The whole vocabulary-remapping pass on a file content. -/
def replace_foaf_focus (content : List Char) : List Char :=
  scanSub "foaf:focus".data replaceFocusRepl content

/-- The round-trip test title from the spec: `O'Brien "Study"`. -/
def obrienTitle : List Char :=
  "O".data ++ [apos] ++ "Brien ".data ++ [dquote] ++ "Study".data ++ [dquote]

/-- The expected escaped form of the round-trip test title. -/
def obrienEscaped : List Char :=
  "O".data ++ [apos] ++ "Brien ".data ++ [bslash, dquote] ++ "Study".data ++ [bslash, dquote]

/-- The first row (in row order) whose project number generates the given
project URI. -/
def firstRowFor (uri : List Char) (rows : List XRow) : Option XRow :=
  rows.find? (fun r =>
    match r.projectnummer with
    | some pn => decide (xProjectUri pn = uri)
    | none => false)

/-- The institution a row submits to organization processing: present only
when the row passes the project-number guard and the institution cell is
present and non-blank. -/
def xRowInst (r : XRow) : Option (List Char) :=
  match r.projectnummer, r.instelling with
  | some _, some inst => if (pyStrip inst).isEmpty then none else some inst
  | _, _ => none

/-- The first institution name (in row order, among rows that reach
organization processing) whose generated URI is `u`. -/
def firstInstFor (u : List Char) (rows : List XRow) : Option (List Char) :=
  (rows.filterMap xRowInst).find? (fun i => decide (generate_organization_uri i = u))

/-- Invariant for claim C2: every registered dataset stores the escaped
form of its raw name. -/
def DatasetsEscaped (st : XState) : Prop :=
  ∀ x ∈ st.datasets, x.snd.snd = escape_turtle_string x.fst

/-- Invariant for claim C6: the reference sets of every project are
duplicate-free. -/
def ProjSetsNodup (st : XState) : Prop :=
  ∀ u p, List.lookup u st.projects = some p → p.datasets.Nodup ∧ p.organizations.Nodup

/-- The project dictionary has pairwise distinct keys (it is a Python dict). -/
def ProjKeysNodup (st : XState) : Prop :=
  (st.projects.map (fun e => e.fst)).Nodup

/-- The organization dictionary has pairwise distinct keys. -/
def OrgKeysNodup (st : XState) : Prop :=
  (st.organizations.map (fun e => e.fst)).Nodup

/-- Invariant for claim C9: every stored project record carries the title
and dates of the FIRST row (in row order) bearing its URI, and a record
exists exactly when such a row exists. -/
def ProjFieldsFromFirstRow (pref : List XRow) (st : XState) : Prop :=
  (∀ u p, List.lookup u st.projects = some p →
     ∃ r, firstRowFor u pref = some r ∧
       p.title = escapeOptional r.onderzoek ∧
       p.start_date = r.startdatum ∧ p.end_date = r.einddatum) ∧
  (∀ u, List.lookup u st.projects = none → firstRowFor u pref = none)

/-- Invariant for claim C10: every cache entry is the identity record of
its key, every stored organization entity carries the escaped name and the
classification of the FIRST institution (in row order) that generated its
URI, and an entity exists exactly when such an institution exists. -/
def OrgFromFirstInst (pref : List XRow) (st : XState) : Prop :=
  (∀ i e, List.lookup i st.cache = some e →
     e.fst = i ∧ e.snd = classify_organization i) ∧
  (∀ u e, List.lookup u st.organizations = some e →
     ∃ inst, firstInstFor u pref = some inst ∧
       e.fst = escape_turtle_string inst ∧ e.snd = classify_organization inst) ∧
  (∀ u, List.lookup u st.organizations = none → firstInstFor u pref = none)

theorem lookup_cons_eq {β : Type} (u k : List Char) (v : β) (t : List (List Char × β)) :
    List.lookup u ((k, v) :: t) = if u = k then some v else List.lookup u t := by
  by_cases h : u = k
  · simp [List.lookup, h]
  · have h2 : (u == k) = false := beq_eq_false_iff_ne.mpr h
    simp [List.lookup, h2, h]

theorem updateAssoc_cons (k k2 : List Char) (v : XProject) (f : XProject → XProject)
    (t : List (List Char × XProject)) :
    updateAssoc k f ((k2, v) :: t) =
      if k2 = k then (k2, f v) :: t else (k2, v) :: updateAssoc k f t := rfl

theorem lookup_eq_none_iff {β : Type} (u : List Char) (l : List (List Char × β)) :
    List.lookup u l = none ↔ u ∉ l.map (fun e => e.fst) := by
  induction l with
  | nil => simp
  | cons e t ih =>
    obtain ⟨k, v⟩ := e
    rw [lookup_cons_eq]
    by_cases h : u = k
    · subst h
      rw [if_pos rfl]
      simp only [List.map_cons]
      exact iff_of_false (fun hh => Option.noConfusion hh)
        (fun hB => hB (List.mem_cons_self _ _))
    · rw [if_neg h, ih]
      simp only [List.map_cons, List.mem_cons]
      constructor
      · intro hn hor
        rcases hor with hk | hmem
        · exact h hk
        · exact hn hmem
      · intro hn hmem
        exact hn (Or.inr hmem)

theorem lookup_of_mem_keysNodup {β : Type} (l : List (List Char × β)) (u : List Char) (b : β)
    (hnd : (l.map (fun e => e.fst)).Nodup) (hm : (u, b) ∈ l) :
    List.lookup u l = some b := by
  induction l with
  | nil => simp at hm
  | cons e t ih =>
    obtain ⟨k, v⟩ := e
    simp only [List.map_cons, List.nodup_cons] at hnd
    rw [lookup_cons_eq]
    rcases List.mem_cons.mp hm with h | h
    · rw [Prod.mk.injEq] at h
      simp [h.1, h.2]
    · by_cases hu : u = k
      · subst hu
        exact absurd (List.mem_map.mpr ⟨(u, b), h, rfl⟩) hnd.1
      · simpa [hu] using ih hnd.2 h

theorem updateAssoc_keys (l : List (List Char × XProject)) (k : List Char)
    (f : XProject → XProject) :
    (updateAssoc k f l).map (fun e => e.fst) = l.map (fun e => e.fst) := by
  induction l with
  | nil => rfl
  | cons e t ih =>
    obtain ⟨k2, v⟩ := e
    rw [updateAssoc_cons]
    by_cases h : k2 = k <;> simp [h, ih]

theorem lookup_updateAssoc_ne (l : List (List Char × XProject)) (k : List Char)
    (f : XProject → XProject) (u : List Char) (hu : u ≠ k) :
    List.lookup u (updateAssoc k f l) = List.lookup u l := by
  induction l with
  | nil => rfl
  | cons e t ih =>
    obtain ⟨k2, v⟩ := e
    rw [updateAssoc_cons]
    by_cases h : k2 = k
    · rw [if_pos h, lookup_cons_eq, lookup_cons_eq]
      have hu2 : u ≠ k2 := fun hh => hu (hh.trans h)
      rw [if_neg hu2, if_neg hu2]
    · rw [if_neg h, lookup_cons_eq, lookup_cons_eq]
      by_cases hu2 : u = k2
      · rw [if_pos hu2, if_pos hu2]
      · rw [if_neg hu2, if_neg hu2, ih]

theorem lookup_updateAssoc_self (l : List (List Char × XProject)) (k : List Char)
    (f : XProject → XProject) :
    List.lookup k (updateAssoc k f l) = (List.lookup k l).map f := by
  induction l with
  | nil => simp [updateAssoc]
  | cons e t ih =>
    obtain ⟨k2, v⟩ := e
    rw [updateAssoc_cons]
    by_cases h : k2 = k
    · subst h
      rw [if_pos rfl, lookup_cons_eq, lookup_cons_eq, if_pos rfl, if_pos rfl]
      rfl
    · have hk : k ≠ k2 := fun hh => h hh.symm
      rw [if_neg h, lookup_cons_eq, lookup_cons_eq, if_neg hk, if_neg hk, ih]

theorem lookup_updateAssoc_some (l : List (List Char × XProject)) (k : List Char)
    (f : XProject → XProject) (u : List Char) (p : XProject)
    (h : List.lookup u (updateAssoc k f l) = some p) :
    ∃ p0, List.lookup u l = some p0 ∧ (p = p0 ∨ p = f p0) := by
  by_cases hu : u = k
  · subst hu
    rw [lookup_updateAssoc_self] at h
    obtain ⟨p0, hp0, hfp⟩ := Option.map_eq_some'.mp h
    exact ⟨p0, hp0, Or.inr hfp.symm⟩
  · rw [lookup_updateAssoc_ne _ _ _ _ hu] at h
    exact ⟨p, h, Or.inl rfl⟩

theorem mem_addToSet (x y : List Char) (l : List (List Char)) :
    y ∈ addToSet x l ↔ y = x ∨ y ∈ l := by
  unfold addToSet
  by_cases h : x ∈ l
  · rw [if_pos h]
    constructor
    · exact Or.inr
    · rintro (rfl | hy)
      · exact h
      · exact hy
  · rw [if_neg h]
    simp [List.mem_append, or_comm]

theorem addToSet_nodup (x : List Char) (l : List (List Char)) (h : l.Nodup) :
    (addToSet x l).Nodup := by
  unfold addToSet
  by_cases hm : x ∈ l
  · simpa [hm] using h
  · rw [if_neg hm, (List.perm_append_singleton x l).nodup_iff, List.nodup_cons]
    exact ⟨hm, h⟩

theorem pyReplaceChar_append (old : Char) (new a b : List Char) :
    pyReplaceChar old new (a ++ b) = pyReplaceChar old new a ++ pyReplaceChar old new b := by
  induction a with
  | nil => rfl
  | cons c t ih => simp [pyReplaceChar, ih]

theorem escape_eq_charwise (s : List Char) :
    escape_turtle_string s = escapeCharwise s := by
  induction s with
  | nil => rfl
  | cons c t ih =>
    unfold escape_turtle_string at ih ⊢
    simp only [pyReplaceChar, escapeCharwise]
    by_cases hb : c = bslash
    · have hq : ¬(c = dquote) := by
        subst hb
        decide
      rw [if_pos hb, if_neg (show ¬(c = dquote) from hq)]
      simp only [pyReplaceChar_append, ih, if_pos hb]
      have : pyReplaceChar dquote [bslash, dquote] [bslash, bslash] = [bslash, bslash] := by decide
      rw [this]
    · by_cases hq : c = dquote
      · rw [if_neg hb, if_pos hq]
        subst hq
        simp only [pyReplaceChar_append, ih]
        have h1 : pyReplaceChar dquote [bslash, dquote] [dquote] = [bslash, dquote] := by decide
        simp only [pyReplaceChar, if_pos rfl, if_neg hb, List.append_nil]
        simp
      · rw [if_neg hb, if_neg hq]
        simp only [pyReplaceChar_append, ih]
        simp [pyReplaceChar, hb, hq]

theorem escapeCharwise_ne_nil (c : Char) (t : List Char) :
    escapeCharwise (c :: t) ≠ [] := by
  unfold escapeCharwise
  by_cases hb : c = bslash
  · rw [if_pos hb]
    simp
  · rw [if_neg hb]
    by_cases hq : c = dquote
    · rw [if_pos hq]
      simp
    · rw [if_neg hq]
      simp

theorem unescape_cons_not_bslash (c : Char) (l : List Char) (h : c ≠ bslash) :
    unescapeTurtle (c :: l) = c :: unescapeTurtle l := by
  cases l with
  | nil => rfl
  | cons d t =>
    have e1 : unescapeTurtle (c :: d :: t) =
        if c = bslash then
          (if d = bslash ∨ d = dquote then d :: unescapeTurtle t
           else c :: unescapeTurtle (d :: t))
        else c :: unescapeTurtle (d :: t) := rfl
    rw [e1, if_neg h]

theorem unescape_escapeCharwise (s : List Char) :
    unescapeTurtle (escapeCharwise s) = s := by
  induction s with
  | nil => rfl
  | cons c t ih =>
    unfold escapeCharwise
    by_cases hb : c = bslash
    · rw [if_pos hb]
      show unescapeTurtle (bslash :: bslash :: escapeCharwise t) = c :: t
      unfold unescapeTurtle
      rw [if_pos rfl, if_pos (Or.inl rfl), ih, hb]
    · by_cases hq : c = dquote
      · rw [if_neg hb, if_pos hq]
        show unescapeTurtle (bslash :: dquote :: escapeCharwise t) = c :: t
        unfold unescapeTurtle
        rw [if_pos rfl, if_pos (Or.inr rfl), ih, hq]
      · rw [if_neg hb, if_neg hq]
        show unescapeTurtle (c :: escapeCharwise t) = c :: t
        rw [unescape_cons_not_bslash c _ hb, ih]

theorem unescape_escape (s : List Char) :
    unescapeTurtle (escape_turtle_string s) = s := by
  rw [escape_eq_charwise]
  exact unescape_escapeCharwise s

/-- Claim C3: the organization URI is a pure function of the cleaned name
(strip characters outside alphanumerics and whitespace, collapse whitespace
runs to single underscores, lower-case, truncate to 50 characters, embed in
the fixed namespace template): names with equal cleaned forms receive equal
URIs, the same input always yields the same output, and the copy of the
generator in `organization_lookup.py` computes the same function. -/
theorem organization_uri_pure_function (n1 n2 : List Char)
    (h : clean_name n1 = clean_name n2) :
    generate_organization_uri n1 = generate_organization_uri n2 ∧
    generate_organization_uri n1 = orgNamespace ++ clean_name n1 ∧
    (∀ n, lookupGenerateOrganizationUri n = generate_organization_uri n) := by
  refine ⟨?_, rfl, fun n => rfl⟩
  unfold generate_organization_uri
  rw [h]

/-- Witness for C3 at two concrete institution names whose cleaned forms
coincide. -/
theorem organization_uri_pure_function_witness :
    clean_name "Universiteit  X!".data = clean_name "universiteit x".data ∧
    generate_organization_uri "Universiteit  X!".data =
      generate_organization_uri "universiteit x".data :=
  ⟨by decide, (organization_uri_pure_function "Universiteit  X!".data "universiteit x".data
    (by decide)).1⟩

/-- Claim C4: `classify_organization` always returns exactly one of the five
fixed categories, and it equals the first-match cascade over the fixed
keyword tests in the fixed priority order education, government, research,
corporate, generic default.  Determinism is immediate because it is a pure
function of the name. -/
theorem classify_organization_total_first_match (name : List Char) :
    classify_organization name ∈ orgCategories ∧
    classify_organization name =
      (if hasEduKeyword name then "schema:EducationalOrganization".data
       else if hasGovKeyword name then "schema:GovernmentOrganization".data
       else if hasResKeyword name then "schema:ResearchOrganization".data
       else if hasCorpKeyword name then "schema:Corporation".data
       else "schema:Organization".data) := by
  have hcas : classify_organization name =
      (if hasEduKeyword name then "schema:EducationalOrganization".data
       else if hasGovKeyword name then "schema:GovernmentOrganization".data
       else if hasResKeyword name then "schema:ResearchOrganization".data
       else if hasCorpKeyword name then "schema:Corporation".data
       else "schema:Organization".data) := rfl
  refine ⟨?_, hcas⟩
  rw [hcas]
  by_cases h1 : hasEduKeyword name = true
  · simp [h1, orgCategories]
  · by_cases h2 : hasGovKeyword name = true
    · simp [h1, h2, orgCategories]
    · by_cases h3 : hasResKeyword name = true
      · simp [h1, h2, h3, orgCategories]
      · by_cases h4 : hasCorpKeyword name = true
        · simp [h1, h2, h3, h4, orgCategories]
        · simp [h1, h2, h3, h4, orgCategories]

theorem xStepProject_datasets (st : XState) (uri : List Char) (r : XRow) :
    (xStepProject st uri r).datasets = st.datasets := by
  unfold xStepProject
  split <;> rfl

theorem xStepProject_organizations (st : XState) (uri : List Char) (r : XRow) :
    (xStepProject st uri r).organizations = st.organizations := by
  unfold xStepProject
  split <;> rfl

theorem xStepProject_cache (st : XState) (uri : List Char) (r : XRow) :
    (xStepProject st uri r).cache = st.cache := by
  unfold xStepProject
  split <;> rfl

theorem xStepProject_projects (st : XState) (uri : List Char) (r : XRow) :
    (xStepProject st uri r).projects = st.projects ∨
    ((List.lookup uri st.projects = none) ∧
      (xStepProject st uri r).projects = st.projects ++ [(uri, xInitProject r)]) := by
  unfold xStepProject
  by_cases h : (List.lookup uri st.projects).isSome
  · rw [if_pos h]
    exact Or.inl rfl
  · rw [if_neg h]
    exact Or.inr ⟨Option.not_isSome_iff_eq_none.mp h, rfl⟩

theorem xStepDataset_organizations (ids : Nat → List Char) (st : XState) (uri : List Char)
    (r : XRow) : (xStepDataset ids st uri r).organizations = st.organizations := by
  unfold xStepDataset xAddDataset
  cases r.bestandsnaam with
  | none => rfl
  | some dn =>
    dsimp only
    split
    · rfl
    · split <;> rfl

theorem xStepDataset_cache (ids : Nat → List Char) (st : XState) (uri : List Char)
    (r : XRow) : (xStepDataset ids st uri r).cache = st.cache := by
  unfold xStepDataset xAddDataset
  cases r.bestandsnaam with
  | none => rfl
  | some dn =>
    dsimp only
    split
    · rfl
    · split <;> rfl

theorem xStepDataset_datasets (ids : Nat → List Char) (st : XState) (uri : List Char)
    (r : XRow) :
    (xStepDataset ids st uri r).datasets = st.datasets ∨
    ∃ dn, (xStepDataset ids st uri r).datasets =
      st.datasets ++ [(dn, datasetNamespace ++ ids st.nextId, escape_turtle_string dn)] := by
  unfold xStepDataset xAddDataset
  cases r.bestandsnaam with
  | none => exact Or.inl rfl
  | some dn =>
    dsimp only
    split
    · exact Or.inl rfl
    · split
      · exact Or.inl rfl
      · exact Or.inr ⟨dn, rfl⟩

theorem xStepDataset_projects (ids : Nat → List Char) (st : XState) (uri : List Char)
    (r : XRow) :
    (xStepDataset ids st uri r).projects = st.projects ∨
    ∃ du, (xStepDataset ids st uri r).projects =
      updateAssoc uri (fun p => { p with datasets := addToSet du p.datasets }) st.projects := by
  unfold xStepDataset xAddDataset
  cases r.bestandsnaam with
  | none => exact Or.inl rfl
  | some dn =>
    dsimp only
    split
    · exact Or.inl rfl
    · split
      · exact Or.inr ⟨_, rfl⟩
      · exact Or.inr ⟨_, rfl⟩

theorem xStepOrg_datasets (st : XState) (uri : List Char) (r : XRow) :
    (xStepOrg st uri r).datasets = st.datasets := by
  unfold xStepOrg
  cases r.instelling with
  | none => rfl
  | some inst =>
    dsimp only
    split
    · rfl
    · split
      · rfl
      · split <;> rfl

theorem xStepOrg_projects (st : XState) (uri : List Char) (r : XRow) :
    (xStepOrg st uri r).projects = st.projects ∨
    ∃ ouri, (xStepOrg st uri r).projects =
      updateAssoc uri (fun p => { p with organizations := addToSet ouri p.organizations })
        st.projects := by
  unfold xStepOrg
  cases r.instelling with
  | none => exact Or.inl rfl
  | some inst =>
    dsimp only
    split
    · exact Or.inl rfl
    · split
      · exact Or.inr ⟨_, rfl⟩
      · split <;> exact Or.inr ⟨_, rfl⟩

theorem runExcel_preserve (ids : Nat → List Char) (P : XState → Prop)
    (hstep : ∀ st r, P st → P (processXRow ids st r)) :
    ∀ (rows : List XRow) (st : XState), P st → P (rows.foldl (processXRow ids) st) := by
  intro rows
  induction rows with
  | nil => exact fun st h => h
  | cons r t ih => exact fun st h => ih _ (hstep st r h)

theorem runExcel_preserve_pref (ids : Nat → List Char) (P : List XRow → XState → Prop)
    (hstep : ∀ pref st r, P pref st → P (pref ++ [r]) (processXRow ids st r)) :
    ∀ (rows pref : List XRow) (st : XState),
      P pref st → P (pref ++ rows) (rows.foldl (processXRow ids) st) := by
  intro rows
  induction rows with
  | nil => intro pref st h; simpa using h
  | cons r t ih =>
    intro pref st h
    have h3 := ih (pref ++ [r]) _ (hstep pref st r h)
    simpa [List.append_assoc] using h3

theorem datasetsEscaped_step (ids : Nat → List Char) (st : XState) (r : XRow)
    (h : DatasetsEscaped st) : DatasetsEscaped (processXRow ids st r) := by
  unfold processXRow
  cases r.projectnummer with
  | none => exact h
  | some pn =>
    dsimp only
    intro x hx
    rw [xStepOrg_datasets] at hx
    have h1 : DatasetsEscaped (xStepProject st (xProjectUri pn) r) := by
      intro y hy
      rw [xStepProject_datasets] at hy
      exact h y hy
    rcases xStepDataset_datasets ids (xStepProject st (xProjectUri pn) r) (xProjectUri pn) r with
      he | ⟨dn, he⟩
    · rw [he] at hx
      exact h1 x hx
    · rw [he] at hx
      rcases List.mem_append.mp hx with hx1 | hx2
      · exact h1 x hx1
      · rcases List.mem_singleton.mp hx2 with rfl
        rfl

theorem datasetsEscaped_run (ids : Nat → List Char) (rows : List XRow) :
    DatasetsEscaped (runExcel ids rows) := by
  refine runExcel_preserve ids DatasetsEscaped
    (fun st r h => datasetsEscaped_step ids st r h) rows initXState ?_
  intro x hx
  simp [initXState] at hx

theorem lookup_updateAssoc_none (l : List (List Char × XProject)) (k : List Char)
    (f : XProject → XProject) (u : List Char)
    (h : List.lookup u (updateAssoc k f l) = none) : List.lookup u l = none := by
  by_cases hu : u = k
  · subst hu
    rw [lookup_updateAssoc_self] at h
    exact Option.map_eq_none'.mp h
  · rwa [lookup_updateAssoc_ne _ _ _ _ hu] at h

theorem fieldsPreserved_updateAssoc (l : List (List Char × XProject)) (k : List Char)
    (f : XProject → XProject) (u : List Char) (p : XProject)
    (hf : ∀ q, (f q).title = q.title ∧ (f q).start_date = q.start_date ∧
      (f q).end_date = q.end_date)
    (h : List.lookup u (updateAssoc k f l) = some p) :
    ∃ p0, List.lookup u l = some p0 ∧ p.title = p0.title ∧
      p.start_date = p0.start_date ∧ p.end_date = p0.end_date := by
  obtain ⟨p0, hp0, hor⟩ := lookup_updateAssoc_some l k f u p h
  rcases hor with h1 | h1
  · exact ⟨p0, hp0, by rw [h1], by rw [h1], by rw [h1]⟩
  · refine ⟨p0, hp0, ?_, ?_, ?_⟩
    · rw [h1]
      exact (hf p0).1
    · rw [h1]
      exact (hf p0).2.1
    · rw [h1]
      exact (hf p0).2.2

theorem lookup_xStepProject (st : XState) (uri : List Char) (r : XRow) (u : List Char) :
    List.lookup u (xStepProject st uri r).projects =
      if u = uri ∧ List.lookup uri st.projects = none then some (xInitProject r)
      else List.lookup u st.projects := by
  unfold xStepProject
  by_cases hs : (List.lookup uri st.projects).isSome
  · rw [if_pos hs]
    have hne : List.lookup uri st.projects ≠ none := by
      intro hh
      rw [hh] at hs
      exact Bool.noConfusion hs
    rw [if_neg (fun hh => hne hh.2)]
  · rw [if_neg hs]
    have hnone : List.lookup uri st.projects = none := Option.not_isSome_iff_eq_none.mp hs
    dsimp only
    rw [List.lookup_append, hnone]
    by_cases hu : u = uri
    · subst hu
      rw [if_pos ⟨rfl, rfl⟩, lookup_cons_eq, if_pos rfl, hnone]
      rfl
    · rw [if_neg (fun hh => hu hh.1), lookup_cons_eq, if_neg hu]
      cases hl : List.lookup u st.projects <;> rfl

theorem firstRowFor_append (u : List Char) (pref : List XRow) (r : XRow) :
    firstRowFor u (pref ++ [r]) = (firstRowFor u pref).or (firstRowFor u [r]) := by
  unfold firstRowFor
  rw [List.find?_append]

theorem firstRowFor_single_none (u : List Char) (r : XRow) (h : r.projectnummer = none) :
    firstRowFor u [r] = none := by
  unfold firstRowFor
  simp [List.find?, h]

theorem firstRowFor_single_some (u : List Char) (r : XRow) (pn : List Char)
    (h : r.projectnummer = some pn) :
    firstRowFor u [r] = if xProjectUri pn = u then some r else none := by
  unfold firstRowFor
  by_cases he : xProjectUri pn = u
  · simp [List.find?, h, he]
  · simp [List.find?, h, he]

theorem projFields_step (ids : Nat → List Char) (pref : List XRow) (st : XState) (r : XRow)
    (h : ProjFieldsFromFirstRow pref st) :
    ProjFieldsFromFirstRow (pref ++ [r]) (processXRow ids st r) := by
  obtain ⟨hsome, hnone⟩ := h
  unfold processXRow
  cases hpn : r.projectnummer with
  | none =>
    constructor
    · intro u p hp
      obtain ⟨r0, hr0, hf⟩ := hsome u p hp
      exact ⟨r0, by rw [firstRowFor_append, hr0]; rfl, hf⟩
    · intro u hp
      rw [firstRowFor_append, hnone u hp, firstRowFor_single_none u r hpn]
      rfl
  | some pn =>
    dsimp only
    constructor
    · intro u p hp
      -- walk back through xStepOrg
      have hp2 : ∃ p2, List.lookup u (xStepDataset ids (xStepProject st (xProjectUri pn) r)
          (xProjectUri pn) r).projects = some p2 ∧ p.title = p2.title ∧
          p.start_date = p2.start_date ∧ p.end_date = p2.end_date := by
        rcases xStepOrg_projects (xStepDataset ids (xStepProject st (xProjectUri pn) r)
            (xProjectUri pn) r) (xProjectUri pn) r with he | ⟨ouri, he⟩
        · rw [he] at hp
          exact ⟨p, hp, rfl, rfl, rfl⟩
        · rw [he] at hp
          refine fieldsPreserved_updateAssoc _ _ _ _ _ ?_ hp
          intro q
          exact ⟨rfl, rfl, rfl⟩
      obtain ⟨p2, hp2l, hpf2⟩ := hp2
      -- walk back through xStepDataset
      have hp1 : ∃ p1, List.lookup u (xStepProject st (xProjectUri pn) r).projects = some p1 ∧
          p2.title = p1.title ∧ p2.start_date = p1.start_date ∧ p2.end_date = p1.end_date := by
        rcases xStepDataset_projects ids (xStepProject st (xProjectUri pn) r)
            (xProjectUri pn) r with he | ⟨du, he⟩
        · rw [he] at hp2l
          exact ⟨p2, hp2l, rfl, rfl, rfl⟩
        · rw [he] at hp2l
          refine fieldsPreserved_updateAssoc _ _ _ _ _ ?_ hp2l
          intro q
          exact ⟨rfl, rfl, rfl⟩
      obtain ⟨p1, hp1l, hpf1⟩ := hp1
      rw [lookup_xStepProject] at hp1l
      by_cases hc : u = xProjectUri pn ∧ List.lookup (xProjectUri pn) st.projects = none
      · rw [if_pos hc] at hp1l
        have hp1e : p1 = xInitProject r := (Option.some.inj hp1l).symm
        have hl0 : List.lookup u st.projects = none := by
          rw [hc.1]
          exact hc.2
        refine ⟨r, ?_, ?_, ?_, ?_⟩
        · rw [firstRowFor_append, hnone u hl0,
            firstRowFor_single_some u r pn hpn, if_pos hc.1.symm]
          rfl
        · rw [hpf2.1, hpf1.1, hp1e]
          rfl
        · rw [hpf2.2.1, hpf1.2.1, hp1e]
          rfl
        · rw [hpf2.2.2, hpf1.2.2, hp1e]
          rfl
      · rw [if_neg hc] at hp1l
        obtain ⟨r0, hr0, hf0⟩ := hsome u p1 hp1l
        refine ⟨r0, by rw [firstRowFor_append, hr0]; rfl, ?_, ?_, ?_⟩
        · rw [hpf2.1, hpf1.1, hf0.1]
        · rw [hpf2.2.1, hpf1.2.1, hf0.2.1]
        · rw [hpf2.2.2, hpf1.2.2, hf0.2.2]
    · intro u hp
      -- none is preserved backwards through the three steps
      have h2 : List.lookup u (xStepDataset ids (xStepProject st (xProjectUri pn) r)
          (xProjectUri pn) r).projects = none := by
        rcases xStepOrg_projects (xStepDataset ids (xStepProject st (xProjectUri pn) r)
            (xProjectUri pn) r) (xProjectUri pn) r with he | ⟨ouri, he⟩
        · rwa [he] at hp
        · rw [he] at hp
          exact lookup_updateAssoc_none _ _ _ _ hp
      have h1 : List.lookup u (xStepProject st (xProjectUri pn) r).projects = none := by
        rcases xStepDataset_projects ids (xStepProject st (xProjectUri pn) r)
            (xProjectUri pn) r with he | ⟨du, he⟩
        · rwa [he] at h2
        · rw [he] at h2
          exact lookup_updateAssoc_none _ _ _ _ h2
      rw [lookup_xStepProject] at h1
      by_cases hc : u = xProjectUri pn ∧ List.lookup (xProjectUri pn) st.projects = none
      · rw [if_pos hc] at h1
        exact Option.noConfusion h1
      · rw [if_neg hc] at h1
        have hne : ¬ xProjectUri pn = u := by
          intro hh
          exact hc ⟨hh.symm, hh ▸ h1⟩
        rw [firstRowFor_append, hnone u h1, firstRowFor_single_some u r pn hpn, if_neg hne]
        rfl

theorem projFields_run (ids : Nat → List Char) (rows : List XRow) :
    ProjFieldsFromFirstRow rows (runExcel ids rows) := by
  have h0 : ProjFieldsFromFirstRow [] initXState := by
    constructor
    · intro u p hp
      exact absurd hp (by simp [initXState])
    · intro u _
      rfl
  have h := runExcel_preserve_pref ids ProjFieldsFromFirstRow
    (fun pref st r hh => projFields_step ids pref st r hh) rows [] initXState h0
  simpa using h

theorem keysNodup_append_new {β : Type} (l : List (List Char × β)) (u : List Char) (v : β)
    (hnd : (l.map (fun e => e.fst)).Nodup) (hl : List.lookup u l = none) :
    ((l ++ [(u, v)]).map (fun e => e.fst)).Nodup := by
  rw [List.map_append]
  have hm : u ∉ l.map (fun e => e.fst) := (lookup_eq_none_iff u l).mp hl
  simp only [List.map_cons, List.map_nil]
  rw [(List.perm_append_singleton _ _).nodup_iff, List.nodup_cons]
  exact ⟨hm, hnd⟩

theorem projKeysNodup_step (ids : Nat → List Char) (st : XState) (r : XRow)
    (h : ProjKeysNodup st) : ProjKeysNodup (processXRow ids st r) := by
  unfold processXRow
  cases hpn : r.projectnummer with
  | none => exact h
  | some pn =>
    dsimp only
    have h1 : ProjKeysNodup (xStepProject st (xProjectUri pn) r) := by
      unfold ProjKeysNodup
      rcases xStepProject_projects st (xProjectUri pn) r with he | ⟨hl, he⟩
      · rw [he]
        exact h
      · rw [he]
        exact keysNodup_append_new _ _ _ h hl
    have h2 : ProjKeysNodup (xStepDataset ids (xStepProject st (xProjectUri pn) r)
        (xProjectUri pn) r) := by
      unfold ProjKeysNodup
      rcases xStepDataset_projects ids (xStepProject st (xProjectUri pn) r)
          (xProjectUri pn) r with he | ⟨du, he⟩
      · rw [he]
        exact h1
      · rw [he, updateAssoc_keys]
        exact h1
    unfold ProjKeysNodup
    rcases xStepOrg_projects (xStepDataset ids (xStepProject st (xProjectUri pn) r)
        (xProjectUri pn) r) (xProjectUri pn) r with he | ⟨ouri, he⟩
    · rw [he]
      exact h2
    · rw [he, updateAssoc_keys]
      exact h2

theorem projKeysNodup_run (ids : Nat → List Char) (rows : List XRow) :
    ProjKeysNodup (runExcel ids rows) := by
  refine runExcel_preserve ids ProjKeysNodup
    (fun st r hh => projKeysNodup_step ids st r hh) rows initXState ?_
  simp [ProjKeysNodup, initXState]

theorem xStepOrg_organizations (st : XState) (uri : List Char) (r : XRow) :
    ((xStepOrg st uri r).organizations = st.organizations ∧
      (r.instelling = none ∨
       (∃ inst, r.instelling = some inst ∧ (pyStrip inst).isEmpty = true) ∨
       (∃ inst, r.instelling = some inst ∧ (pyStrip inst).isEmpty = false ∧
         (List.lookup (generate_organization_uri inst) st.organizations).isSome))) ∨
    ∃ inst, r.instelling = some inst ∧ (pyStrip inst).isEmpty = false ∧
      List.lookup (generate_organization_uri inst) st.organizations = none ∧
      ((∃ e, List.lookup inst st.cache = some e ∧
         (xStepOrg st uri r).organizations =
           st.organizations ++
             [(generate_organization_uri inst, escape_turtle_string e.fst, e.snd)]) ∨
       (List.lookup inst st.cache = none ∧
         (xStepOrg st uri r).organizations =
           st.organizations ++ [(generate_organization_uri inst, escape_turtle_string inst,
             classify_organization inst)])) := by
  unfold xStepOrg
  cases hi : r.instelling with
  | none => exact Or.inl ⟨rfl, Or.inl rfl⟩
  | some inst =>
    dsimp only
    by_cases hb : (pyStrip inst).isEmpty
    · rw [if_pos hb]
      exact Or.inl ⟨rfl, Or.inr (Or.inl ⟨inst, rfl, hb⟩)⟩
    · rw [if_neg hb]
      by_cases hs : (List.lookup (generate_organization_uri inst) st.organizations).isSome
      · rw [if_pos hs]
        exact Or.inl ⟨rfl, Or.inr (Or.inr ⟨inst, rfl, Bool.eq_false_iff.mpr hb, hs⟩)⟩
      · rw [if_neg hs]
        have hnone := Option.not_isSome_iff_eq_none.mp hs
        cases hc : List.lookup inst st.cache with
        | some e =>
          exact Or.inr ⟨inst, rfl, Bool.eq_false_iff.mpr hb, hnone,
            Or.inl ⟨e, hc, by simp⟩⟩
        | none =>
          exact Or.inr ⟨inst, rfl, Bool.eq_false_iff.mpr hb, hnone, Or.inr ⟨hc, by simp⟩⟩

theorem xStepOrg_cache (st : XState) (uri : List Char) (r : XRow) :
    (xStepOrg st uri r).cache = st.cache ∨
    ∃ inst, List.lookup inst st.cache = none ∧
      (xStepOrg st uri r).cache = st.cache ++ [(inst, inst, classify_organization inst)] := by
  unfold xStepOrg
  cases hi : r.instelling with
  | none => exact Or.inl rfl
  | some inst =>
    dsimp only
    by_cases hb : (pyStrip inst).isEmpty
    · rw [if_pos hb]
      exact Or.inl rfl
    · rw [if_neg hb]
      by_cases hs : (List.lookup (generate_organization_uri inst) st.organizations).isSome
      · rw [if_pos hs]
        exact Or.inl rfl
      · rw [if_neg hs]
        cases hc : List.lookup inst st.cache with
        | some e => exact Or.inl rfl
        | none => exact Or.inr ⟨inst, hc, by simp⟩

theorem orgKeysNodup_step (ids : Nat → List Char) (st : XState) (r : XRow)
    (h : OrgKeysNodup st) : OrgKeysNodup (processXRow ids st r) := by
  unfold processXRow
  cases hpn : r.projectnummer with
  | none => exact h
  | some pn =>
    dsimp only
    have h2 : OrgKeysNodup (xStepDataset ids (xStepProject st (xProjectUri pn) r)
        (xProjectUri pn) r) := by
      unfold OrgKeysNodup
      rw [xStepDataset_organizations, xStepProject_organizations]
      exact h
    rcases xStepOrg_organizations (xStepDataset ids (xStepProject st (xProjectUri pn) r)
        (xProjectUri pn) r) (xProjectUri pn) r with ⟨he, _⟩ | ⟨inst, _, _, hnew, hcases⟩
    · unfold OrgKeysNodup
      rw [he]
      exact h2
    · rcases hcases with ⟨e, _, he⟩ | ⟨_, he⟩
      · unfold OrgKeysNodup
        rw [he]
        exact keysNodup_append_new _ _ _ h2 hnew
      · unfold OrgKeysNodup
        rw [he]
        exact keysNodup_append_new _ _ _ h2 hnew

theorem orgKeysNodup_run (ids : Nat → List Char) (rows : List XRow) :
    OrgKeysNodup (runExcel ids rows) := by
  refine runExcel_preserve ids OrgKeysNodup
    (fun st r hh => orgKeysNodup_step ids st r hh) rows initXState ?_
  simp [OrgKeysNodup, initXState]

theorem setsNodup_updateAssoc_lookup (l : List (List Char × XProject)) (k u : List Char)
    (f : XProject → XProject) (p : XProject)
    (hf : ∀ q, q.datasets.Nodup ∧ q.organizations.Nodup →
      (f q).datasets.Nodup ∧ (f q).organizations.Nodup)
    (hl : ∀ u0 p0, List.lookup u0 l = some p0 → p0.datasets.Nodup ∧ p0.organizations.Nodup)
    (h : List.lookup u (updateAssoc k f l) = some p) :
    p.datasets.Nodup ∧ p.organizations.Nodup := by
  obtain ⟨p0, hp0, hor⟩ := lookup_updateAssoc_some l k f u p h
  rcases hor with h1 | h1
  · rw [h1]
    exact hl u p0 hp0
  · rw [h1]
    exact hf p0 (hl u p0 hp0)

theorem projSetsNodup_step (ids : Nat → List Char) (st : XState) (r : XRow)
    (h : ProjSetsNodup st) : ProjSetsNodup (processXRow ids st r) := by
  unfold processXRow
  cases hpn : r.projectnummer with
  | none => exact h
  | some pn =>
    dsimp only
    have h1 : ProjSetsNodup (xStepProject st (xProjectUri pn) r) := by
      intro u p hp
      rw [lookup_xStepProject] at hp
      by_cases hc : u = xProjectUri pn ∧ List.lookup (xProjectUri pn) st.projects = none
      · rw [if_pos hc] at hp
        have := Option.some.inj hp
        rw [← this]
        exact ⟨List.nodup_nil, List.nodup_nil⟩
      · rw [if_neg hc] at hp
        exact h u p hp
    have h2 : ProjSetsNodup (xStepDataset ids (xStepProject st (xProjectUri pn) r)
        (xProjectUri pn) r) := by
      intro u p hp
      rcases xStepDataset_projects ids (xStepProject st (xProjectUri pn) r)
          (xProjectUri pn) r with he | ⟨du, he⟩
      · rw [he] at hp
        exact h1 u p hp
      · rw [he] at hp
        refine setsNodup_updateAssoc_lookup _ _ _ _ _ ?_ h1 hp
        intro q hq
        exact ⟨addToSet_nodup _ _ hq.1, hq.2⟩
    intro u p hp
    rcases xStepOrg_projects (xStepDataset ids (xStepProject st (xProjectUri pn) r)
        (xProjectUri pn) r) (xProjectUri pn) r with he | ⟨ouri, he⟩
    · rw [he] at hp
      exact h2 u p hp
    · rw [he] at hp
      refine setsNodup_updateAssoc_lookup _ _ _ _ _ ?_ h2 hp
      intro q hq
      exact ⟨hq.1, addToSet_nodup _ _ hq.2⟩

theorem projSetsNodup_run (ids : Nat → List Char) (rows : List XRow) :
    ProjSetsNodup (runExcel ids rows) := by
  refine runExcel_preserve ids ProjSetsNodup
    (fun st r hh => projSetsNodup_step ids st r hh) rows initXState ?_
  intro u p hp
  exact absurd hp (by simp [initXState])

theorem uriRef_inj (d1 d2 : List Char) (h : uriRef d1 = uriRef d2) : d1 = d2 := by
  unfold uriRef at h
  exact List.append_cancel_right (List.cons.inj h).2

theorem requiresLine_inj :
    Function.Injective (fun du => "   dc:requires ".data ++ uriRef du ++ " ;".data) := by
  intro a b h
  dsimp only at h
  exact uriRef_inj a b (List.append_cancel_left (List.append_cancel_right h))

/-- Claim C1 (code bug): `process_excel_to_turtle` violates the
subject-block contract that `generate_turtle_rdf` honours.  A row carrying
only a project number yields a bare subject-URI line (the entity has zero
properties yet is not dropped), and a project with properties but no
organization gets a final property line terminated with `;` and no `.`
anywhere, because only the last ORGANIZATION line receives the period.
`generate_turtle_rdf` drops both degenerate projects and emits
`;`-separated, `.`-terminated blocks. -/
theorem project_block_termination_code_bug :
    xProjectSection (runExcel (fun _ => "x".data)
        [⟨some "123".data, none, none, none, none, none⟩]) =
      [uriRef (projectNamespace ++ "123".data), []] ∧
    gtProjectSection (fun _ => "x".data)
      [⟨some "123".data, none, none, none, none, none⟩] = [] ∧
    xProjectSection (runExcel (fun _ => "x".data)
        [⟨some "9".data, some "T".data, none, none, none, none⟩]) =
      [uriRef (projectNamespace ++ "9".data),
       "   dc:title ".data ++ quoted "T".data ++ " ;".data, []] := by
  decide

/-- Claim C5 (code bug): the backslash-repair pass is not idempotent.  On a
`dc:alternative` literal containing one backslash, the first application
doubles it and a second application doubles it again, so applying the pass
twice differs from applying it once. -/
theorem fix_backslashes_not_idempotent :
    fix_backslashes_in_turtle ("dc:alternative ".data ++ [dquote, 'a', bslash, 'b', dquote]) =
      "dc:alternative ".data ++ [dquote, 'a', bslash, bslash, 'b', dquote] ∧
    fix_backslashes_in_turtle (fix_backslashes_in_turtle
        ("dc:alternative ".data ++ [dquote, 'a', bslash, 'b', dquote])) ≠
      fix_backslashes_in_turtle
        ("dc:alternative ".data ++ [dquote, 'a', bslash, 'b', dquote]) := by
  decide

/-- Claim C2 counterexample: `generate_turtle_rdf` escapes only double
quotes, not backslashes.  For the dataset name `a\b` the emitted literal is
the raw name with its backslash NOT doubled, while the claimed escaping
rule would have doubled it. -/
theorem gt_escaping_counterexample :
    gtDatasetSection (fun _ => "x".data)
        [⟨some "1".data, none, none, none, some ['a', bslash, 'b'], none⟩] =
      [uriRef (datasetNamespace ++ "x".data),
       "   dc:alternative ".data ++ quoted ['a', bslash, 'b'] ++ " .".data, []] ∧
    escape_turtle_string ['a', bslash, 'b'] ≠ ['a', bslash, 'b'] := by
  decide

/-- Claim C2 (amended): in the Excel-to-Turtle converter,
`escape_turtle_string` (backslash doubled, then quote escaped) is applied
to every title and dataset-name literal before embedding; it is reversible
by the unescaping rule (hence injective), in particular for the title
`O'Brien "Study"`.  `generate_turtle_rdf` escapes only quotes (see the
counterexample). -/
theorem escape_reversible_excel :
    (∀ s, unescapeTurtle (escape_turtle_string s) = s) ∧
    (escape_turtle_string obrienTitle = obrienEscaped ∧
      unescapeTurtle obrienEscaped = obrienTitle) ∧
    (∀ ids rows, DatasetsEscaped (runExcel ids rows)) ∧
    (∀ (ids : Nat → List Char) (rows : List XRow) (u : List Char) (p : XProject),
       List.lookup u (runExcel ids rows).projects = some p →
       ∃ r, firstRowFor u rows = some r ∧ p.title = escapeOptional r.onderzoek) := by
  refine ⟨unescape_escape, ⟨by decide, by decide⟩, datasetsEscaped_run, ?_⟩
  intro ids rows u p h
  obtain ⟨r, hr, ht, _, _⟩ := (projFields_run ids rows).1 u p h
  exact ⟨r, hr, ht⟩

/-- Witness for C2 at concrete inputs. -/
theorem escape_reversible_excel_witness :
    unescapeTurtle (escape_turtle_string obrienTitle) = obrienTitle ∧
    DatasetsEscaped (runExcel (fun _ => "x".data)
      [⟨some "1".data, none, none, none, some "fileA.csv".data, none⟩]) ∧
    (∃ r, firstRowFor (projectNamespace ++ "1".data)
        [(⟨some "1".data, some "T".data, none, none, none, none⟩ : XRow)] = some r ∧
      (⟨"T".data, none, none, [], []⟩ : XProject).title = escapeOptional r.onderzoek) :=
  ⟨escape_reversible_excel.1 obrienTitle,
   escape_reversible_excel.2.2.1 (fun _ => "x".data)
     [⟨some "1".data, none, none, none, some "fileA.csv".data, none⟩],
   escape_reversible_excel.2.2.2 (fun _ => "x".data)
     [⟨some "1".data, some "T".data, none, none, none, none⟩]
     (projectNamespace ++ "1".data) ⟨"T".data, none, none, [], []⟩ (by decide)⟩

/-- Claim C6 (amended): in the Excel-to-Turtle converter, the `dc:requires`
lines of every emitted project are pairwise distinct and appear in sorted
URI order, and the organization references are likewise sorted and
duplicate-free.  `generate_turtle_rdf`, by contrast, emits `dc:requires`
in row order with duplicates preserved (see the counterexample). -/
theorem requires_lines_sorted_nodup_excel (ids : Nat → List Char) (rows : List XRow)
    (u : List Char) (p : XProject) (h : (u, p) ∈ (runExcel ids rows).projects) :
    (xRequiresLines p).Nodup ∧
    List.Sorted (· ≤ ·) (sortUris p.datasets) ∧
    (sortUris p.organizations).Nodup ∧
    List.Sorted (· ≤ ·) (sortUris p.organizations) := by
  have hl := lookup_of_mem_keysNodup _ _ _ (projKeysNodup_run ids rows) h
  have hnd := projSetsNodup_run ids rows u p hl
  refine ⟨?_, List.sorted_insertionSort _ _, ?_, List.sorted_insertionSort _ _⟩
  · unfold xRequiresLines
    exact List.Nodup.map requiresLine_inj
      ((List.perm_insertionSort _ _).nodup_iff.mpr hnd.1)
  · exact (List.perm_insertionSort _ _).nodup_iff.mpr hnd.2

/-- Witness for C6 at a concrete run. -/
theorem requires_lines_sorted_nodup_excel_witness :
    ((projectNamespace ++ "123".data,
       (⟨"Study A".data, some "2020-01-01".data, some "2021-01-01".data,
         [datasetNamespace ++ "x".data],
         [generate_organization_uri "Universiteit X".data]⟩ : XProject)) ∈
      (runExcel (fun _ => "x".data)
        [⟨some "123".data, some "Study A".data, some "2020-01-01".data,
          some "2021-01-01".data, some "fileA.csv".data, some "Universiteit X".data⟩]).projects) ∧
    (xRequiresLines ⟨"Study A".data, some "2020-01-01".data, some "2021-01-01".data,
      [datasetNamespace ++ "x".data],
      [generate_organization_uri "Universiteit X".data]⟩).Nodup :=
  ⟨by decide,
   (requires_lines_sorted_nodup_excel (fun _ => "x".data)
     [⟨some "123".data, some "Study A".data, some "2020-01-01".data,
       some "2021-01-01".data, some "fileA.csv".data, some "Universiteit X".data⟩]
     (projectNamespace ++ "123".data)
     ⟨"Study A".data, some "2020-01-01".data, some "2021-01-01".data,
       [datasetNamespace ++ "x".data],
       [generate_organization_uri "Universiteit X".data]⟩ (by decide)).1⟩

/-- Claim C6 counterexample: in `generate_turtle_rdf`, two rows sharing the
project number and the dataset name contribute two identical `dc:requires`
lines: the emitted property list and the emitted section both contain
duplicates. -/
theorem gt_requires_duplicates_counterexample :
    ¬ (gtProperties (fun _ => "x".data)
        [⟨some "1".data, none, some "2020-01-01".data, none, some "a".data, none⟩,
         ⟨some "1".data, none, some "2020-01-01".data, none, some "a".data, none⟩]
        "1".data).Nodup ∧
    ((gtProjDatasets "1".data
        [⟨some "1".data, none, some "2020-01-01".data, none, some "a".data, none⟩,
         ⟨some "1".data, none, none, none, some "b".data, none⟩]).filterMap
       (fun dn => List.lookup dn (gtMapping (fun k => if k = 0 then "z".data else "a".data)
         [⟨some "1".data, none, some "2020-01-01".data, none, some "a".data, none⟩,
          ⟨some "1".data, none, none, none, some "b".data, none⟩]))) =
      [datasetNamespace ++ "z".data, datasetNamespace ++ "a".data] ∧
    ¬ List.Sorted (· ≤ ·) [datasetNamespace ++ "z".data, datasetNamespace ++ "a".data] := by
  refine ⟨by decide, by decide, ?_⟩
  intro hs
  have h1 := List.rel_of_sorted_cons hs _ (List.mem_singleton.mpr rfl)
  exact absurd h1 (by decide)

/-- Claim C7 (amended): a row whose project identifier is MISSING is a
no-op for the whole Excel-to-Turtle ingestion step; but `generate_turtle_rdf`
still registers and emits the dataset of a row whose identifier is missing,
while emitting no project block for it (and the Excel converter does not
skip BLANK identifiers at all, see the counterexample). -/
theorem missing_id_row_contributes_nothing (ids : Nat → List Char) (st : XState) (r : XRow)
    (h : r.projectnummer = none) :
    processXRow ids st r = st ∧
    gtProjectSection (fun _ => "x".data)
      [⟨none, none, none, none, some "f.csv".data, none⟩] = [] ∧
    gtDatasetSection (fun _ => "x".data)
      [⟨none, none, none, none, some "f.csv".data, none⟩] ≠ [] := by
  refine ⟨?_, by decide, by decide⟩
  unfold processXRow
  rw [h]

/-- Witness for C7 at a concrete state and row. -/
theorem missing_id_row_contributes_nothing_witness :
    processXRow (fun _ => "x".data) initXState
      ⟨none, some "T".data, none, none, some "d".data, some "Org".data⟩ = initXState :=
  (missing_id_row_contributes_nothing (fun _ => "x".data) initXState
    ⟨none, some "T".data, none, none, some "d".data, some "Org".data⟩ rfl).1

/-- Claim C7 counterexample: in the Excel converter a BLANK (empty-string)
project identifier passes the `pd.notna` guard: the row creates a project
whose URI is the bare namespace, and a bare subject block is emitted. -/
theorem blank_project_id_not_skipped_counterexample :
    (runExcel (fun _ => "x".data) [⟨some [], none, none, none, none, none⟩]).projects ≠ [] ∧
    xProjectSection (runExcel (fun _ => "x".data)
      [⟨some [], none, none, none, none, none⟩]) = [uriRef projectNamespace, []] := by
  decide

/-- Claim C9 (amended): in the Excel-to-Turtle converter the title, start
date and end date of a project are exactly those of the FIRST row (in row
order) carrying its identifier; later rows cannot override them.
`generate_turtle_rdf` instead keeps the first NON-MISSING value per field
(pandas `groupby.first` skips nulls), so a later row's value is used when
the first occurrence is missing (see the counterexample). -/
theorem project_fields_first_row_excel (ids : Nat → List Char) (rows : List XRow)
    (u : List Char) (p : XProject)
    (h : List.lookup u (runExcel ids rows).projects = some p) :
    ∃ r, firstRowFor u rows = some r ∧ p.title = escapeOptional r.onderzoek ∧
      p.start_date = r.startdatum ∧ p.end_date = r.einddatum :=
  (projFields_run ids rows).1 u p h

/-- Witness for C9: with two rows sharing the identifier and conflicting
titles and dates, the stored record carries the first row's values. -/
theorem project_fields_first_row_excel_witness :
    List.lookup (projectNamespace ++ "1".data)
      (runExcel (fun _ => "x".data)
        [⟨some "1".data, some "A".data, some "2020-01-01".data, none, none, none⟩,
         ⟨some "1".data, some "B".data, some "2021-05-05".data, some "2022-06-06".data,
           none, none⟩]).projects =
      some ⟨"A".data, some "2020-01-01".data, none, [], []⟩ ∧
    (∃ r, firstRowFor (projectNamespace ++ "1".data)
        [(⟨some "1".data, some "A".data, some "2020-01-01".data, none, none, none⟩ : XRow),
         ⟨some "1".data, some "B".data, some "2021-05-05".data, some "2022-06-06".data,
           none, none⟩] = some r ∧
      (⟨"A".data, some "2020-01-01".data, none, [], []⟩ : XProject).title =
        escapeOptional r.onderzoek ∧
      (⟨"A".data, some "2020-01-01".data, none, [], []⟩ : XProject).start_date = r.startdatum ∧
      (⟨"A".data, some "2020-01-01".data, none, [], []⟩ : XProject).end_date = r.einddatum) :=
  ⟨by decide,
   project_fields_first_row_excel (fun _ => "x".data)
     [⟨some "1".data, some "A".data, some "2020-01-01".data, none, none, none⟩,
      ⟨some "1".data, some "B".data, some "2021-05-05".data, some "2022-06-06".data,
        none, none⟩]
     (projectNamespace ++ "1".data)
     ⟨"A".data, some "2020-01-01".data, none, [], []⟩ (by decide)⟩

/-- Claim C9 counterexample: in `generate_turtle_rdf`, when the first row of
an identifier has a missing title and a later row carries title `X`, the
emitted block contains `dc:title "X"`: the later row's value is NOT
ignored. -/
theorem gt_first_occurrence_counterexample :
    firstSome (fun r => r.onderzoek) "1".data
      [⟨some "1".data, none, some "2020-01-01".data, none, none, none⟩,
       ⟨some "1".data, some "X".data, none, none, none, none⟩] = some "X".data ∧
    gtProjectBlock (fun _ => "x".data)
      [⟨some "1".data, none, some "2020-01-01".data, none, none, none⟩,
       ⟨some "1".data, some "X".data, none, none, none, none⟩] "1".data =
      [uriRef (projectNamespace ++ "1".data),
       "   dc:title ".data ++ quoted "X".data ++ " ;".data,
       "   schema:startDate ".data ++ quoted "2020-01-01".data ++ "^^xsd:date".data ++
         " .".data,
       []] := by
  decide

theorem xRowInst_pn_none (r : XRow) (h : r.projectnummer = none) : xRowInst r = none := by
  unfold xRowInst
  rw [h]

theorem xRowInst_inst_none (r : XRow) (h : r.instelling = none) : xRowInst r = none := by
  unfold xRowInst
  rw [h]
  cases r.projectnummer <;> rfl

theorem xRowInst_blank (r : XRow) (inst : List Char) (hi : r.instelling = some inst)
    (hb : (pyStrip inst).isEmpty = true) (pn : List Char) (hpn : r.projectnummer = some pn) :
    xRowInst r = none := by
  unfold xRowInst
  rw [hpn, hi]
  simp [hb]

theorem xRowInst_some (r : XRow) (pn inst : List Char) (hpn : r.projectnummer = some pn)
    (hi : r.instelling = some inst) (hb : (pyStrip inst).isEmpty = false) :
    xRowInst r = some inst := by
  unfold xRowInst
  rw [hpn, hi]
  simp [hb]

theorem firstInstFor_append (u : List Char) (pref : List XRow) (r : XRow) :
    firstInstFor u (pref ++ [r]) = (firstInstFor u pref).or (firstInstFor u [r]) := by
  unfold firstInstFor
  rw [List.filterMap_append, List.find?_append]

theorem firstInstFor_single_none (u : List Char) (r : XRow) (h : xRowInst r = none) :
    firstInstFor u [r] = none := by
  unfold firstInstFor
  simp [List.filterMap_cons, h]

theorem firstInstFor_single_some (u : List Char) (r : XRow) (inst : List Char)
    (h : xRowInst r = some inst) :
    firstInstFor u [r] =
      if generate_organization_uri inst = u then some inst else none := by
  unfold firstInstFor
  by_cases he : generate_organization_uri inst = u <;>
    simp [List.filterMap_cons, h, List.find?, he]

theorem cacheInv_append (cache : List (List Char × List Char × List Char)) (inst : List Char)
    (hc : ∀ i e, List.lookup i cache = some e →
      e.fst = i ∧ e.snd = classify_organization i) :
    ∀ i e, List.lookup i (cache ++ [(inst, inst, classify_organization inst)]) = some e →
      e.fst = i ∧ e.snd = classify_organization i := by
  intro i e h
  rw [List.lookup_append] at h
  cases hl : List.lookup i cache with
  | some e0 =>
    rw [hl] at h
    have he : e0 = e := Option.some.inj h
    exact he ▸ hc i e0 hl
  | none =>
    rw [hl] at h
    rw [lookup_cons_eq] at h
    by_cases hu : i = inst
    · rw [if_pos hu] at h
      have he := Option.some.inj h
      rw [← he]
      exact ⟨hu.symm, by rw [hu]⟩
    · rw [if_neg hu] at h
      exact absurd h (by simp)

theorem orgInv_keep (pref : List XRow) (r : XRow)
    (orgs : List (List Char × List Char × List Char))
    (hsingle : ∀ u, List.lookup u orgs = none → firstInstFor u [r] = none)
    (hsome : ∀ u e, List.lookup u orgs = some e →
      ∃ i0, firstInstFor u pref = some i0 ∧ e.fst = escape_turtle_string i0 ∧
        e.snd = classify_organization i0)
    (hnone : ∀ u, List.lookup u orgs = none → firstInstFor u pref = none) :
    (∀ u e, List.lookup u orgs = some e →
      ∃ i0, firstInstFor u (pref ++ [r]) = some i0 ∧ e.fst = escape_turtle_string i0 ∧
        e.snd = classify_organization i0) ∧
    (∀ u, List.lookup u orgs = none → firstInstFor u (pref ++ [r]) = none) := by
  constructor
  · intro u e h
    obtain ⟨i0, hi0, hf⟩ := hsome u e h
    exact ⟨i0, by rw [firstInstFor_append, hi0]; rfl, hf⟩
  · intro u h
    rw [firstInstFor_append, hnone u h, hsingle u h]
    rfl

theorem orgInv_append (pref : List XRow) (r : XRow)
    (orgs : List (List Char × List Char × List Char)) (inst : List Char)
    (hx : xRowInst r = some inst)
    (hnew : List.lookup (generate_organization_uri inst) orgs = none)
    (hsome : ∀ u e, List.lookup u orgs = some e →
      ∃ i0, firstInstFor u pref = some i0 ∧ e.fst = escape_turtle_string i0 ∧
        e.snd = classify_organization i0)
    (hnone : ∀ u, List.lookup u orgs = none → firstInstFor u pref = none) :
    (∀ u e, List.lookup u (orgs ++ [(generate_organization_uri inst,
        escape_turtle_string inst, classify_organization inst)]) = some e →
      ∃ i0, firstInstFor u (pref ++ [r]) = some i0 ∧ e.fst = escape_turtle_string i0 ∧
        e.snd = classify_organization i0) ∧
    (∀ u, List.lookup u (orgs ++ [(generate_organization_uri inst,
        escape_turtle_string inst, classify_organization inst)]) = none →
      firstInstFor u (pref ++ [r]) = none) := by
  constructor
  · intro u e h
    rw [List.lookup_append] at h
    cases hl : List.lookup u orgs with
    | some e0 =>
      rw [hl] at h
      have he : e0 = e := Option.some.inj h
      obtain ⟨i0, hi0, hf⟩ := hsome u e0 hl
      exact ⟨i0, by rw [firstInstFor_append, hi0]; rfl, he ▸ hf⟩
    | none =>
      rw [hl] at h
      rw [lookup_cons_eq] at h
      by_cases hu : u = generate_organization_uri inst
      · rw [if_pos hu] at h
        have he := Option.some.inj h
        refine ⟨inst, ?_, ?_, ?_⟩
        · rw [firstInstFor_append, hnone u hl, firstInstFor_single_some u r inst hx,
            if_pos hu.symm]
          rfl
        · rw [← he]
        · rw [← he]
      · rw [if_neg hu] at h
        exact absurd h (by simp)
  · intro u h
    rw [List.lookup_append] at h
    cases hl : List.lookup u orgs with
    | some e0 =>
      rw [hl] at h
      exact Option.noConfusion h
    | none =>
      rw [hl] at h
      rw [lookup_cons_eq] at h
      by_cases hu : u = generate_organization_uri inst
      · rw [if_pos hu] at h
        exact Option.noConfusion h
      · rw [firstInstFor_append, hnone u hl, firstInstFor_single_some u r inst hx,
          if_neg (fun hh => hu hh.symm)]
        rfl

theorem orgFirst_step (ids : Nat → List Char) (pref : List XRow) (st : XState) (r : XRow)
    (h : OrgFromFirstInst pref st) :
    OrgFromFirstInst (pref ++ [r]) (processXRow ids st r) := by
  obtain ⟨hcache, hsome, hnone⟩ := h
  unfold processXRow
  cases hpn : r.projectnummer with
  | none =>
    have hx : xRowInst r = none := xRowInst_pn_none r hpn
    exact ⟨hcache, orgInv_keep pref r st.organizations
      (fun u _ => firstInstFor_single_none u r hx) hsome hnone⟩
  | some pn =>
    dsimp only
    have horgsB : (xStepDataset ids (xStepProject st (xProjectUri pn) r)
        (xProjectUri pn) r).organizations = st.organizations := by
      rw [xStepDataset_organizations, xStepProject_organizations]
    have hcacheB : (xStepDataset ids (xStepProject st (xProjectUri pn) r)
        (xProjectUri pn) r).cache = st.cache := by
      rw [xStepDataset_cache, xStepProject_cache]
    refine ⟨?_, ?_⟩
    · -- cache component
      rcases xStepOrg_cache (xStepDataset ids (xStepProject st (xProjectUri pn) r)
          (xProjectUri pn) r) (xProjectUri pn) r with he | ⟨inst, _, he⟩
      · rw [he, hcacheB]
        exact hcache
      · rw [he, hcacheB]
        exact cacheInv_append st.cache inst hcache
    · -- organization components
      rcases xStepOrg_organizations (xStepDataset ids (xStepProject st (xProjectUri pn) r)
          (xProjectUri pn) r) (xProjectUri pn) r with ⟨he, hreason⟩ |
          ⟨inst, hi, hb, hnew, hcases⟩
      · rw [he, horgsB]
        refine orgInv_keep pref r st.organizations ?_ hsome hnone
        intro u hu
        rcases hreason with hi | ⟨inst, hi, hb⟩ | ⟨inst, hi, hb, hs⟩
        · exact firstInstFor_single_none u r (xRowInst_inst_none r hi)
        · exact firstInstFor_single_none u r (xRowInst_blank r inst hi hb pn hpn)
        · rw [horgsB] at hs
          have hx := xRowInst_some r pn inst hpn hi hb
          have hne : generate_organization_uri inst ≠ u := by
            intro hh
            rw [hh, hu] at hs
            exact Bool.noConfusion hs
          rw [firstInstFor_single_some u r inst hx, if_neg hne]
      · rw [horgsB] at hnew
        have hx := xRowInst_some r pn inst hpn hi hb
        rcases hcases with ⟨e, hce, he⟩ | ⟨hce, he⟩
        · rw [hcacheB] at hce
          obtain ⟨hef, hes⟩ := hcache inst e hce
          rw [he, horgsB, hef, hes]
          exact orgInv_append pref r st.organizations inst hx hnew hsome hnone
        · rw [he, horgsB]
          exact orgInv_append pref r st.organizations inst hx hnew hsome hnone

theorem orgFirst_run (ids : Nat → List Char) (rows : List XRow) :
    OrgFromFirstInst rows (runExcel ids rows) := by
  have h0 : OrgFromFirstInst [] initXState := by
    refine ⟨?_, ?_, ?_⟩
    · intro i e he
      exact absurd he (by simp [initXState])
    · intro u e he
      exact absurd he (by simp [initXState])
    · intro u _
      rfl
  have h := runExcel_preserve_pref ids OrgFromFirstInst
    (fun pref st r hh => orgFirst_step ids pref st r hh) rows [] initXState h0
  simpa using h

/-- Claim C10: organization deduplication is keyed on the generated URI:
the organization dictionary has pairwise distinct URI keys (one emitted
entity per URI), and the entity stored under a URI carries the escaped
`foaf:name` and the classification of whichever institution name generating
that URI was seen FIRST in row order; rows with later colliding names only
add a reference to the same URI. -/
theorem org_dedup_keyed_on_uri (ids : Nat → List Char) (rows : List XRow)
    (u nm ty : List Char)
    (h : List.lookup u (runExcel ids rows).organizations = some (nm, ty)) :
    OrgKeysNodup (runExcel ids rows) ∧
    ∃ inst, firstInstFor u rows = some inst ∧
      nm = escape_turtle_string inst ∧ ty = classify_organization inst := by
  refine ⟨orgKeysNodup_run ids rows, ?_⟩
  obtain ⟨inst, hi, hf, hs⟩ := (orgFirst_run ids rows).2.1 u (nm, ty) h
  exact ⟨inst, hi, hf, hs⟩

/-- Witness for C10: two institution names with the same cleaned form map
to one URI; the stored entity carries the first name's escaped form and
classification. -/
theorem org_dedup_keyed_on_uri_witness :
    List.lookup (generate_organization_uri "Universiteit X".data)
      (runExcel (fun _ => "x".data)
        [⟨some "1".data, none, none, none, none, some "Universiteit X".data⟩,
         ⟨some "2".data, none, none, none, none, some "universiteit  x!".data⟩]).organizations =
      some ("Universiteit X".data, "schema:EducationalOrganization".data) ∧
    (∃ inst, firstInstFor (generate_organization_uri "Universiteit X".data)
        [(⟨some "1".data, none, none, none, none, some "Universiteit X".data⟩ : XRow),
         ⟨some "2".data, none, none, none, none, some "universiteit  x!".data⟩] = some inst ∧
      "Universiteit X".data = escape_turtle_string inst ∧
      "schema:EducationalOrganization".data = classify_organization inst) :=
  ⟨by decide,
   (org_dedup_keyed_on_uri (fun _ => "x".data)
     [⟨some "1".data, none, none, none, none, some "Universiteit X".data⟩,
      ⟨some "2".data, none, none, none, none, some "universiteit  x!".data⟩]
     (generate_organization_uri "Universiteit X".data)
     "Universiteit X".data "schema:EducationalOrganization".data (by decide)).2⟩

theorem matchLit_self (pat rest : List Char) : matchLit pat (pat ++ rest) = some rest := by
  induction pat with
  | nil => rfl
  | cons p ps ih =>
    show (if p = p then matchLit ps (ps ++ rest) else none) = some rest
    rw [if_pos rfl]
    exact ih

theorem matchLit_sound (pat : List Char) :
    ∀ (l r : List Char), matchLit pat l = some r → l = pat ++ r := by
  induction pat with
  | nil =>
    intro l r h
    exact Option.some.inj h
  | cons p ps ih =>
    intro l r h
    cases l with
    | nil => exact Option.noConfusion h
    | cons c cs =>
      unfold matchLit at h
      by_cases hp : p = c
      · rw [if_pos hp] at h
        rw [List.cons_append, hp, ih cs r h]
      · rw [if_neg hp] at h
        exact Option.noConfusion h

theorem takeWhile_run (p : Char → Bool) :
    ∀ (ws r : List Char), (∀ c ∈ ws, p c = true) →
      (∀ c t, r = c :: t → p c = false) →
      (ws ++ r).takeWhile p = ws ∧ (ws ++ r).dropWhile p = r := by
  intro ws
  induction ws with
  | nil =>
    intro r _ hr
    cases hc : r with
    | nil => subst hc; exact ⟨rfl, rfl⟩
    | cons c t =>
      subst hc
      have hpc := hr c t rfl
      simp [List.takeWhile, List.dropWhile, hpc]
  | cons w wt ih =>
    intro r hws hr
    have hw : p w = true := hws w (List.mem_cons_self _ _)
    have hrest := ih r (fun c hc => hws c (List.mem_cons_of_mem _ hc)) hr
    simp only [List.cons_append, List.takeWhile, List.dropWhile, hw, List.append_eq]
    exact ⟨by rw [hrest.1], hrest.2⟩

theorem dropWhile_head (p : Char → Bool) :
    ∀ (l t : List Char) (c : Char), l.dropWhile p = c :: t → p c = false := by
  intro l
  induction l with
  | nil =>
    intro t c h
    exact List.noConfusion h
  | cons a l2 ih =>
    intro t c h
    rw [List.dropWhile] at h
    by_cases ha : p a
    · rw [ha] at h
      exact ih t c (by simpa using h)
    · have ha2 : p a = false := Bool.eq_false_iff.mpr ha
      rw [ha2] at h
      have := List.cons.inj (by simpa using h)
      rw [← this.1]
      exact ha2

theorem tryPredMatch_sound (pat l ws v r : List Char)
    (h : tryPredMatch pat l = some (ws, v, r)) :
    l = pat ++ ws ++ [dquote] ++ v ++ [dquote] ++ r := by
  unfold tryPredMatch at h
  cases hm : matchLit pat l with
  | none =>
    rw [hm] at h
    exact Option.noConfusion h
  | some r1 =>
    rw [hm] at h
    dsimp only at h
    by_cases hws : (r1.takeWhile pyIsSpace).isEmpty
    · rw [if_pos hws] at h
      exact Option.noConfusion h
    · rw [if_neg hws] at h
      cases hr2 : r1.dropWhile pyIsSpace with
      | nil =>
        rw [hr2] at h
        exact Option.noConfusion h
      | cons c r3 =>
        rw [hr2] at h
        dsimp only at h
        by_cases hc : c = dquote
        · rw [if_pos hc] at h
          cases hr4 : r3.dropWhile (fun d => !decide (d = dquote)) with
          | nil =>
            rw [hr4] at h
            exact Option.noConfusion h
          | cons d r5 =>
            rw [hr4] at h
            dsimp only at h
            have htrip := Option.some.inj h
            have h1 : r1.takeWhile pyIsSpace = ws := congrArg Prod.fst htrip
            have h23 := congrArg Prod.snd htrip
            have h2 : r3.takeWhile (fun d => !decide (d = dquote)) = v :=
              congrArg Prod.fst h23
            have h3 : r5 = r := congrArg Prod.snd h23
            have hd : d = dquote := by
              have hdp := dropWhile_head _ r3 r5 d hr4
              simpa using hdp
            have hl1 : l = pat ++ r1 := matchLit_sound pat l r1 hm
            have hr1e : r1 = ws ++ (c :: r3) := by
              rw [← h1, ← hr2]
              exact (List.takeWhile_append_dropWhile pyIsSpace r1).symm
            have hr3e : r3 = v ++ (d :: r5) := by
              rw [← h2, ← hr4]
              exact (List.takeWhile_append_dropWhile _ r3).symm
            rw [hl1, hr1e, hr3e, hc, hd, h3]
            simp
        · rw [if_neg hc] at h
          exact Option.noConfusion h

theorem tryPredMatch_complete (pat ws v rest : List Char)
    (hws : ∀ c ∈ ws, pyIsSpace c = true) (hwsne : ws ≠ [])
    (hv : ∀ c ∈ v, ¬(c = dquote)) :
    tryPredMatch pat (pat ++ ws ++ [dquote] ++ v ++ [dquote] ++ rest) =
      some (ws, v, rest) := by
  unfold tryPredMatch
  have hassoc : pat ++ ws ++ [dquote] ++ v ++ [dquote] ++ rest =
      pat ++ (ws ++ ([dquote] ++ v ++ [dquote] ++ rest)) := by
    simp [List.append_assoc]
  rw [hassoc, matchLit_self]
  dsimp only
  have hrun := takeWhile_run pyIsSpace ws ([dquote] ++ v ++ [dquote] ++ rest) hws
    (fun c t hct => by
      have : c = dquote := (List.cons.inj (by simpa using hct)).1.symm
      rw [this]
      decide)
  rw [hrun.1, hrun.2]
  have hne : ¬ ws.isEmpty := by
    cases ws with
    | nil => exact absurd rfl hwsne
    | cons a b => simp
  rw [if_neg hne]
  show (if dquote = dquote then
      match (v ++ [dquote] ++ rest).dropWhile (fun d => !decide (d = dquote)) with
      | [] => none
      | _ :: r5 =>
        some (ws, (v ++ [dquote] ++ rest).takeWhile (fun d => !decide (d = dquote)), r5)
      else none) = some (ws, v, rest)
  rw [if_pos rfl]
  have hrun2 := takeWhile_run (fun d => !decide (d = dquote)) v ([dquote] ++ rest)
    (fun c hc => by simp [hv c hc])
    (fun c t hct => by
      have hcd : c = dquote := (List.cons.inj (by simpa using hct)).1.symm
      simp [hcd])
  rw [show v ++ [dquote] ++ rest = v ++ ([dquote] ++ rest) from by simp, hrun2.1, hrun2.2,
    List.singleton_append]

theorem tryPredMatch_length (pat l ws v r : List Char)
    (h : tryPredMatch pat l = some (ws, v, r)) : r.length < l.length := by
  have hl := tryPredMatch_sound pat l ws v r h
  rw [hl]
  simp [List.length_append]
  omega

theorem scanGo_succ_cons (pat : List Char) (repl : List Char → List Char → List Char)
    (fuel : Nat) (c : Char) (rest : List Char) :
    scanGo pat repl (fuel + 1) (c :: rest) =
      match tryPredMatch pat (c :: rest) with
      | some (ws, v, r) => repl ws v ++ scanGo pat repl fuel r
      | none => c :: scanGo pat repl fuel rest := rfl

theorem scanGo_fuel (pat : List Char) (repl : List Char → List Char → List Char) :
    ∀ (f1 : Nat) (l : List Char) (f2 : Nat), l.length ≤ f1 → l.length ≤ f2 →
      scanGo pat repl f1 l = scanGo pat repl f2 l := by
  intro f1
  induction f1 with
  | zero =>
    intro l f2 h1 _
    have hl : l = [] := List.eq_nil_of_length_eq_zero (Nat.le_zero.mp h1)
    subst hl
    cases f2 <;> rfl
  | succ n ih =>
    intro l f2 h1 h2
    cases l with
    | nil => cases f2 <;> rfl
    | cons c rest =>
      cases f2 with
      | zero => exact absurd h2 (by simp)
      | succ m =>
        rw [scanGo_succ_cons, scanGo_succ_cons]
        cases htry : tryPredMatch pat (c :: rest) with
        | none =>
          have hr1 : rest.length ≤ n := by
            simp only [List.length_cons] at h1
            omega
          have hr2 : rest.length ≤ m := by
            simp only [List.length_cons] at h2
            omega
          dsimp only
          rw [ih rest m hr1 hr2]
        | some triple =>
          obtain ⟨ws, v, r⟩ := triple
          have hlen := tryPredMatch_length pat (c :: rest) ws v r htry
          simp only [List.length_cons] at hlen h1 h2
          have hr1 : r.length ≤ n := by omega
          have hr2 : r.length ≤ m := by omega
          dsimp only
          rw [ih r m hr1 hr2]

theorem scanSub_step (pat : List Char) (repl : List Char → List Char → List Char)
    (p0 : Char) (ps ws v rest : List Char) (hpat : pat = p0 :: ps)
    (hws : ∀ c ∈ ws, pyIsSpace c = true) (hwsne : ws ≠ [])
    (hv : ∀ c ∈ v, ¬(c = dquote)) :
    scanSub pat repl (pat ++ ws ++ [dquote] ++ v ++ [dquote] ++ rest) =
      repl ws v ++ scanSub pat repl rest := by
  unfold scanSub
  have hin : pat ++ ws ++ [dquote] ++ v ++ [dquote] ++ rest =
      p0 :: (ps ++ ws ++ [dquote] ++ v ++ [dquote] ++ rest) := by
    rw [hpat]
    simp [List.append_assoc]
  rw [hin]
  simp only [List.length_cons]
  rw [scanGo_succ_cons]
  have hcomp := tryPredMatch_complete pat ws v rest hws hwsne hv
  rw [hin, hpat] at hcomp
  rw [hpat, hcomp]
  dsimp only
  have hlen : rest.length ≤ (ps ++ ws ++ [dquote] ++ v ++ [dquote] ++ rest).length := by
    simp [List.length_append]
    omega
  rw [scanGo_fuel (p0 :: ps) repl _ rest rest.length hlen (Nat.le_refl _)]

/-- Claim C8: in the vocabulary-remapping pass, an occurrence
`foaf:focus<whitespace>"value"` whose quoted value is in the fixed lookup
table is replaced by an `rdf:type` statement with the mapped class, and the
pass continues with the remaining text; an occurrence whose value is not in
the table is reproduced character for character (it is reported and left
unchanged), and the pass likewise continues with the remaining text. -/
theorem replace_foaf_focus_occurrence (ws v rest : List Char)
    (hws : ∀ c ∈ ws, pyIsSpace c = true) (hwsne : ws ≠ [])
    (hv : ∀ c ∈ v, ¬(c = dquote)) :
    (∀ cls, List.lookup v focusMapping = some cls →
      replace_foaf_focus ("foaf:focus".data ++ ws ++ [dquote] ++ v ++ [dquote] ++ rest) =
        "rdf:type ".data ++ cls ++ replace_foaf_focus rest) ∧
    (List.lookup v focusMapping = none →
      replace_foaf_focus ("foaf:focus".data ++ ws ++ [dquote] ++ v ++ [dquote] ++ rest) =
        "foaf:focus".data ++ ws ++ [dquote] ++ v ++ [dquote] ++
          replace_foaf_focus rest) := by
  constructor
  · intro cls hcls
    unfold replace_foaf_focus
    rw [scanSub_step "foaf:focus".data replaceFocusRepl 'f' "oaf:focus".data ws v rest
      (by decide) hws hwsne hv]
    unfold replaceFocusRepl
    rw [hcls]
  · intro hcls
    unfold replace_foaf_focus
    rw [scanSub_step "foaf:focus".data replaceFocusRepl 'f' "oaf:focus".data ws v rest
      (by decide) hws hwsne hv]
    unfold replaceFocusRepl
    rw [hcls]

/-- Witness for C8: one mapped and one unmapped occurrence at concrete
inputs. -/
theorem replace_foaf_focus_occurrence_witness :
    replace_foaf_focus ("foaf:focus".data ++ [' '] ++ [dquote] ++ "Organization".data ++
        [dquote] ++ " .".data) =
      "rdf:type ".data ++ "schema:Organization".data ++ replace_foaf_focus " .".data ∧
    replace_foaf_focus ("foaf:focus".data ++ [' '] ++ [dquote] ++ "Mystery".data ++
        [dquote] ++ " .".data) =
      "foaf:focus".data ++ [' '] ++ [dquote] ++ "Mystery".data ++ [dquote] ++
        replace_foaf_focus " .".data :=
  ⟨(replace_foaf_focus_occurrence [' '] "Organization".data " .".data
      (by decide) (by decide) (by decide)).1 "schema:Organization".data (by decide),
   (replace_foaf_focus_occurrence [' '] "Mystery".data " .".data
      (by decide) (by decide) (by decide)).2 (by decide)⟩
